
import Mathlib

/-!
Shallow embedding of the runtime context and template resolution engine.

The repository carries two source variants of the engine:
* V1, under polyglot/overwrite_from_context: an async resolver with
  ComputeScope-aware resolution, a memoizing compute registry, a Security
  class validating dotted paths, and whole-string template patterns.
* V2, under polyglot/runtime_template_resolver: a synchronous string
  resolver performing per-match substitution inside surrounding text, a
  non-caching compute registry that rejects duplicate registration, and a
  bracket-aware path walker.

Python values are modelled by the JSON-like Value type below; Python None is
Value.null.  Machine floats are carried as their source text only: no claim
depends on float arithmetic or printing.  Error payloads (messages, context
dictionaries) are not modelled, so errors compare by kind.
-/

/-- JSON-like runtime values.  Python None is null; float carries the literal
text it was parsed from. -/
inductive Value where
  | null
  | bool (b : Bool)
  | int (n : Int)
  | float (lit : String)
  | str (s : String)
  | list (xs : List Value)
  | dict (kvs : List (String × Value))
deriving Repr

mutual

/-- Boolean structural equality on values. -/
def Value.beq : Value → Value → Bool
  | .null, .null => true
  | .bool a, .bool b => a = b
  | .int a, .int b => a = b
  | .float a, .float b => a = b
  | .str a, .str b => a = b
  | .list xs, .list ys => Value.beqList xs ys
  | .dict xs, .dict ys => Value.beqDict xs ys
  | _, _ => false

/-- Boolean structural equality on value lists. -/
def Value.beqList : List Value → List Value → Bool
  | [], [] => true
  | x :: xs, y :: ys => Value.beq x y && Value.beqList xs ys
  | _, _ => false

/-- Boolean structural equality on key-value lists. -/
def Value.beqDict : List (String × Value) → List (String × Value) → Bool
  | [], [] => true
  | (k, x) :: xs, (l, y) :: ys => k = l && Value.beq x y && Value.beqDict xs ys
  | _, _ => false

end

mutual

def Value.beq_iff : ∀ a b : Value, Value.beq a b = true ↔ a = b
  | .null, b => by cases b <;> simp [Value.beq]
  | .bool a, b => by cases b <;> simp [Value.beq]
  | .int a, b => by cases b <;> simp [Value.beq]
  | .float a, b => by cases b <;> simp [Value.beq]
  | .str a, b => by cases b <;> simp [Value.beq]
  | .list xs, b => by
      cases b <;> simp [Value.beq]
      exact Value.beqList_iff xs _
  | .dict xs, b => by
      cases b <;> simp [Value.beq]
      exact Value.beqDict_iff xs _

def Value.beqList_iff : ∀ xs ys : List Value, Value.beqList xs ys = true ↔ xs = ys
  | [], ys => by cases ys <;> simp [Value.beqList]
  | x :: xs, ys => by
      cases ys with
      | nil => simp [Value.beqList]
      | cons y ys =>
          simp [Value.beqList, Value.beq_iff x y, Value.beqList_iff xs ys]

def Value.beqDict_iff : ∀ xs ys : List (String × Value), Value.beqDict xs ys = true ↔ xs = ys
  | [], ys => by cases ys <;> simp [Value.beqDict]
  | (k, x) :: xs, ys => by
      cases ys with
      | nil => simp [Value.beqDict]
      | cons ly ys =>
          obtain ⟨l, y⟩ := ly
          simp [Value.beqDict, Value.beq_iff x y, Value.beqDict_iff xs ys, and_assoc]

end

instance : DecidableEq Value := fun a b => decidable_of_iff _ (Value.beq_iff a b)

deriving instance DecidableEq for Except

/-- Error kinds of the V1 (overwrite_from_context) errors module.  The module
defines no MissingValueError class, which is why this type has no such kind. -/
inductive RErr where
  | securityBlockedPath
  | computeNotFound
  | computeFailed
  | recursionLimit
  | scopeViolation
deriving DecidableEq, Repr

/-- Error kinds of the V2 (runtime_template_resolver) errors module. -/
inductive VErr where
  | securityError
  | validationError
  | missingValueError
  | computeFunctionError
deriving DecidableEq, Repr

def underscoreC : Char := Char.ofNat 95

/-- Python str.startswith applied to a one-character head test. -/
def headIsUnderscore (s : String) : Bool :=
  match s.data with
  | c :: _ => c = underscoreC
  | [] => false

/-- Does the list start with the given pattern. -/
def listStartsWith [DecidableEq α] : List α → List α → Bool
  | _, [] => true
  | [], _ :: _ => false
  | a :: as, b :: bs => a = b && listStartsWith as bs

/-- Does the pattern occur as a contiguous subsequence. -/
def containsSeq [DecidableEq α] (pat : List α) : List α → Bool
  | [] => pat.isEmpty
  | a :: as => listStartsWith (a :: as) pat || containsSeq pat as

/-- Python substring test for the two-dot sequence. -/
def hasDotDot (s : String) : Bool := containsSeq ['.', '.'] s.data

/-- Python str.split on a single separator character: always returns at least
one (possibly empty) group, and adjacent separators yield empty groups. -/
def splitOnChar (sep : Char) : List Char → List (List Char)
  | [] => [[]]
  | c :: rest =>
    let r := splitOnChar sep rest
    if c = sep then [] :: r
    else
      match r with
      | [] => [[c]]
      | g :: gs => (c :: g) :: gs

/-- Dot-splitting of a path, as Python path.split applied with a dot. -/
def splitDots (s : String) : List String :=
  (splitOnChar '.' s.data).map (fun l => String.mk l)

/-- One character of the V1 allowed-path character class: alphanumeric,
underscore or dot. -/
def isPathChar (c : Char) : Bool :=
  c.isAlpha || c.isDigit || c = underscoreC || c = '.'

/-- Whole-string match of the V1 PATH_PATTERN regex: a letter followed by
characters of the allowed class. -/
def pathPatternMatch (s : String) : Bool :=
  match s.data with
  | [] => false
  | c :: rest => c.isAlpha && rest.all isPathChar

/-- The blocked dotted-path segments of the V1 Security class. -/
def blockedSegments : List String :=
  ["__proto__", "__class__", "__dict__", "constructor", "prototype"]

/-- Is this segment rejected by the V1 per-segment loop: a blocked name or a
segment starting with an underscore. -/
def segmentOffends (seg : String) : Bool :=
  blockedSegments.contains seg || headIsUnderscore seg

/-- Embedding of V1 Security.validate_path: reject the empty path, then paths
failing the whole-string pattern, then any dot-delimited segment that is a
blocked name or starts with an underscore, then any path containing the
two-dot sequence.  All rejections raise SecurityError; since error payloads
are not modelled, the first-offense iteration order of the source collapses
to an existence test. -/
def validatePath (path : String) : Except RErr Unit :=
  if path = "" then .error .securityBlockedPath
  else if ¬ pathPatternMatch path then .error .securityBlockedPath
  else if (splitDots path).any segmentOffends then .error .securityBlockedPath
  else if hasDotDot path then .error .securityBlockedPath
  else .ok ()

def lbraceC : Char := Char.ofNat 123
def rbraceC : Char := Char.ofNat 125
def squoteC : Char := Char.ofNat 39
def dquoteC : Char := Char.ofNat 34
def pipeC : Char := Char.ofNat 124

/-- Python regex whitespace class, ASCII part: space, tab, newline, carriage
return, vertical tab, form feed. -/
def isPySpace (c : Char) : Bool :=
  c = ' ' || c = Char.ofNat 9 || c = Char.ofNat 10 || c = Char.ofNat 13 ||
  c = Char.ofNat 11 || c = Char.ofNat 12

def isQuoteChar (c : Char) : Bool := c = squoteC || c = dquoteC

/-- First character of a function name: letter or underscore. -/
def isNameStartChar (c : Char) : Bool := c.isAlpha || c = underscoreC

/-- Later characters of a function name: letter, digit or underscore. -/
def isNameChar (c : Char) : Bool := c.isAlpha || c.isDigit || c = underscoreC

/-- Drop the given literal head from the list, or fail. -/
def dropPre [DecidableEq α] : List α → List α → Option (List α)
  | [], l => some l
  | _ :: _, [] => none
  | p :: ps, a :: as => if a = p then dropPre ps as else none

/-- Match the optional default-literal group and the closing braces that end
the V1 expression regexes: either the two closing braces directly, or
whitespace, a pipe, whitespace, an opening quote character, a greedy body,
a closing quote character and the two closing braces.  The quote characters
are an independent character class on each side, so they need not agree, and
the greedy body makes the final quote the last one before the closing braces.
Returns none when the suffix fits neither form, some none for no default and
some of some d for default body d.  The regex dot does not match a newline;
no input considered here contains one, so that refinement is not modelled. -/
def matchDefaultSuffix (rest : List Char) : Option (Option String) :=
  if rest = [rbraceC, rbraceC] then some none
  else
    match rest.dropWhile isPySpace with
    | c :: r2 =>
      if c = pipeC then
        match r2.dropWhile isPySpace with
        | q :: r4 =>
          if isQuoteChar q then
            let n := r4.length
            if 3 ≤ n then
              match r4.drop (n - 3) with
              | [q2, b1, b2] =>
                if isQuoteChar q2 && b1 = rbraceC && b2 = rbraceC then
                  some (some (String.mk (r4.take (n - 3))))
                else none
              | _ => none
            else none
          else none
        | [] => none
      else none
    | [] => none

/-- The literal head of a compute expression. -/
def computeHead : List Char := [lbraceC, lbraceC, 'f', 'n', ':']

/-- Embedding of the V1 COMPUTE_PATTERN regex as a whole-string matcher:
the compute head, a function name of a leading letter-or-underscore and
trailing name characters, then the optional default group and the closing
braces.  Maximal munch on the name is faithful because no character of the
suffix forms belongs to the name class. -/
def computeMatchV1 (s : String) : Option (String × Option String) :=
  match dropPre computeHead s.data with
  | none => none
  | some rest =>
    match rest.takeWhile isNameChar with
    | [] => none
    | c :: cs =>
      if isNameStartChar c then
        match matchDefaultSuffix (rest.dropWhile isNameChar) with
        | some d => some (String.mk (c :: cs), d)
        | none => none
      else none

/-- Embedding of the V1 TEMPLATE_PATTERN regex as a whole-string matcher: two
opening braces, a possibly empty run of path characters, then the optional
default group and the closing braces.  The source deliberately relaxed the
path group to a possibly empty run so that security-violating paths reach
the validator instead of failing the match. -/
def templateMatchV1 (s : String) : Option (String × Option String) :=
  match dropPre [lbraceC, lbraceC] s.data with
  | none => none
  | some rest =>
    match matchDefaultSuffix (rest.dropWhile isPathChar) with
    | some d => some (String.mk (rest.takeWhile isPathChar), d)
    | none => none

/-- ASCII lowercasing, as Python str.lower on the inputs of interest. -/
def lowerAscii (s : String) : String := String.mk (s.data.map Char.toLower)

/-- Python str.isdigit restricted to ASCII digits: nonempty and all digits. -/
def isDigitStr (s : String) : Bool := ¬ s.data.isEmpty && s.data.all Char.isDigit

/-- Base-ten value of a digit list. -/
def digitsToNat (l : List Char) : Nat := l.foldl (fun acc c => acc * 10 + (c.toNat - 48)) 0

/-- Consume the tail of a digit run of the Python float grammar: digits with
single interior underscores, each underscore followed by a digit. -/
def digitRunTail : List Char → List Char
  | c :: rest =>
    if c.isDigit then digitRunTail rest
    else if c = underscoreC then
      match rest with
      | d :: rest2 => if d.isDigit then digitRunTail rest2 else c :: rest
      | [] => [c]
    else c :: rest
  | [] => []

/-- Consume one digitpart of the Python float grammar, failing when the head
is not a digit. -/
def digitRun : List Char → Option (List Char)
  | c :: rest => if c.isDigit then some (digitRunTail rest) else none
  | [] => none

/-- Consume the mantissa of a Python float literal: an integer part with an
optional fraction, or a leading dot with a mandatory fraction. -/
def floatMantissa (l : List Char) : Option (List Char) :=
  match digitRun l with
  | some rest =>
    match rest with
    | c :: r2 =>
      if c = '.' then
        match digitRun r2 with
        | some r3 => some r3
        | none => some r2
      else some rest
    | [] => some []
  | none =>
    match l with
    | c :: r =>
      if c = '.' then
        match digitRun r with
        | some r2 => some r2
        | none => none
      else none
    | [] => none

/-- Consume the optional exponent of a Python float literal. -/
def floatExponent (l : List Char) : Option (List Char) :=
  match l with
  | c :: rest =>
    if c = 'e' || c = 'E' then
      let rest2 :=
        match rest with
        | s :: r => if s = '+' || s = '-' then r else rest
        | [] => rest
      digitRun rest2
    else some l
  | [] => some []

/-- Strip one optional sign character. -/
def stripSign (l : List Char) : List Char :=
  match l with
  | c :: r => if c = '+' || c = '-' then r else l
  | [] => l

/-- Strip Python whitespace from both ends. -/
def stripPySpace (l : List Char) : List Char :=
  ((l.dropWhile isPySpace).reverse.dropWhile isPySpace).reverse

/-- Does the Python float constructor accept this string: optional
whitespace and sign around either an infinity or nan word or a mantissa with
optional exponent, the whole string consumed.  ASCII model: the unicode
digits and spaces Python additionally accepts are not used anywhere here. -/
def floatParsable (s : String) : Bool :=
  let u := stripSign (stripPySpace s.data)
  let lowered := u.map Char.toLower
  if lowered = ['i', 'n', 'f'] || lowered = "infinity".data || lowered = ['n', 'a', 'n'] then
    true
  else
    match floatMantissa u with
    | some rest =>
      match floatExponent rest with
      | some [] => true
      | _ => false
    | none => false

/-- Embedding of V1 ContextResolver._parse_default: the words true and false
in any case become booleans, an all-digit string becomes an integer, a
string the float constructor accepts becomes a float carried as its text,
and anything else stays a string.  The source's leading None check cannot
fire on the inputs reaching it and is dropped. -/
def parseDefaultV1 (val : String) : Value :=
  if lowerAscii val = "true" then .bool true
  else if lowerAscii val = "false" then .bool false
  else if isDigitStr val then .int (Int.ofNat (digitsToNat val.data))
  else if floatParsable val then .float val
  else .str val

/-- Python dict.get on the insertion-ordered key-value list. -/
def dictGet (kvs : List (String × Value)) (k : String) : Option Value :=
  match kvs.find? (fun kv => kv.1 = k) with
  | some kv => some kv.2
  | none => none

/-- Key-presence test on a dict value. -/
def dictHasKey (v : Value) (k : String) : Bool :=
  match v with
  | .dict kvs => (dictGet kvs k).isSome
  | _ => false

/-- Traversal core of V1 ContextResolver._get_value_by_path: for each key a
dict step is a get defaulting to None, any other current value has no data
attribute named by a key in the JSON-like model so the attribute branch
yields None, and a None after any step returns early. -/
def getByKeys : Value → List String → Value
  | cur, [] => cur
  | cur, k :: ks =>
    let nxt :=
      match cur with
      | .dict kvs => (dictGet kvs k).getD .null
      | _ => .null
    if nxt = .null then .null else getByKeys nxt ks

/-- Embedding of V1 ContextResolver._get_value_by_path: dot-split the path
and walk the context.  A missing key and a stored None both surface as
None, exactly as in the source. -/
def getValueByPath (ctx : Value) (path : String) : Value :=
  getByKeys ctx (splitDots path)

/-- The two compute scopes. -/
inductive ComputeScope where
  | STARTUP
  | REQUEST
deriving DecidableEq, Repr

/-- Outcome of one invocation of a registered callable: a returned value or
a raised exception. -/
inductive FnRes where
  | ok (v : Value)
  | exn
deriving DecidableEq, Repr

/-- A registered compute function: its scope tag and its behavior as a map
from invocation index to outcome, so that counter-style functions whose
result or success varies per call are expressible.  The optional context
argument of the source is not modelled: no claim depends on a function
reading the context, and the arity probe of the source only selects how the
callable is invoked. -/
structure RegFn where
  behavior : Nat → FnRes
  scope : ComputeScope

/-- Mutable state of a V1 ComputeRegistry instance: the name-to-function
table and the STARTUP result cache, plus the per-name invocation counter
that models how often each registered callable has run. -/
structure RegState where
  functions : String → Option RegFn
  cache : String → Option Value
  counts : String → Nat

/-- A fresh registry. -/
def emptyRegState : RegState :=
  { functions := fun _ => none, cache := fun _ => none, counts := fun _ => 0 }

/-- Pointwise update of a string-keyed map. -/
def upd {β : Type} (f : String → β) (n : String) (b : β) : String → β :=
  fun m => if m = n then b else f m

/-- Whole-string match of the registry NAME_PATTERN shared by both variants:
a letter or underscore followed by letters, digits or underscores. -/
def nameOk (s : String) : Bool :=
  match s.data with
  | [] => false
  | c :: rest => isNameStartChar c && rest.all isNameChar

/-- Embedding of V1 ComputeRegistry.register: an empty or pattern-failing
name raises ValueError (the empty check of the source is subsumed by the
pattern needing one character), and the function is stored, silently
overwriting any existing entry under the same name. -/
def registerV1 (st : RegState) (name : String) (fn : RegFn) : Except Unit RegState :=
  if ¬ nameOk name then .error ()
  else .ok { st with functions := upd st.functions name (some fn) }

/-- Embedding of V1 ComputeRegistry.clear: drops functions and cache. -/
def clearV1 (st : RegState) : RegState :=
  { st with functions := fun _ => none, cache := fun _ => none }

/-- Embedding of V1 ComputeRegistry.clear_cache: drops only the cache. -/
def clearCacheV1 (st : RegState) : RegState :=
  { st with cache := fun _ => none }

/-- Embedding of V1 ComputeRegistry.resolve.  An unknown name raises; a
STARTUP function with a cache entry returns it without invoking; otherwise
the callable runs at its current invocation index, a success is cached when
the scope is STARTUP, and an exception is wrapped as ComputeFunctionError.
The returned state carries the mutations that persist in the Python object
even when the call raises. -/
def registryResolveV1 (st : RegState) (name : String) : Except RErr Value × RegState :=
  match st.functions name with
  | none => (.error .computeNotFound, st)
  | some rf =>
    match rf.scope, st.cache name with
    | .STARTUP, some v => (.ok v, st)
    | _, _ =>
      let idx := st.counts name
      let st1 := { st with counts := upd st.counts name (idx + 1) }
      match rf.behavior idx with
      | .ok v =>
        if rf.scope = .STARTUP then
          (.ok v, { st1 with cache := upd st1.cache name (some v) })
        else (.ok v, st1)
      | .exn => (.error .computeFailed, st1)

/-- The V1 missing-value strategies. -/
inductive MissingStrategyV1 where
  | ERROR
  | DEFAULT
  | IGNORE
deriving DecidableEq, Repr

/-- V1 ResolverOptions with the source defaults. -/
structure ResolverOptionsV1 where
  maxDepth : Nat := 10
  missingStrategy : MissingStrategyV1 := .ERROR
deriving Repr

/-- Embedding of V1 ContextResolver._resolve_compute, with original the whole
matched expression.  An unregistered name uses the inline default first and
the missing strategy after; a registered REQUEST function resolved at
STARTUP scope raises ScopeViolationError before any invocation; otherwise
the registry resolves, and a registry failure falls back to the inline
default when one is present. -/
def resolveComputeV1 (opts : ResolverOptionsV1) (st : RegState) (scope : ComputeScope)
    (name : String) (dflt : Option String) (original : String) :
    Except RErr Value × RegState :=
  match st.functions name with
  | none =>
    match dflt with
    | some d => (.ok (parseDefaultV1 d), st)
    | none =>
      match opts.missingStrategy with
      | .DEFAULT => (.ok .null, st)
      | .IGNORE => (.ok (.str original), st)
      | .ERROR => (.error .computeNotFound, st)
  | some rf =>
    if rf.scope = .REQUEST && scope = .STARTUP then (.error .scopeViolation, st)
    else
      match registryResolveV1 st name with
      | (.ok v, st2) => (.ok v, st2)
      | (.error e, st2) =>
        match dflt with
        | some d => (.ok (parseDefaultV1 d), st2)
        | none => (.error e, st2)

/-- Embedding of V1 ContextResolver._resolve_template.  The path is validated
first and a SecurityError propagates; then the looked-up value is returned
when it is not None; a None value takes the coerced inline default when one
is present; with no default the IGNORE branch returns the original token,
and the ERROR and DEFAULT strategies fall through to the source's final
expression, which returns the original token as well. -/
def resolveTemplateV1 (opts : ResolverOptionsV1) (ctx : Value)
    (path : String) (dflt : Option String) (original : String) : Except RErr Value :=
  match validatePath path with
  | .error e => .error e
  | .ok _ =>
    let val := getValueByPath ctx path
    if val = .null then
      match dflt with
      | some d => .ok (parseDefaultV1 d)
      | none =>
        match opts.missingStrategy with
        | .IGNORE => .ok (.str original)
        | .ERROR => .ok (.str original)
        | .DEFAULT => .ok (.str original)
    else .ok val

/-- Embedding of V1 ContextResolver.resolve: non-strings pass through before
the depth check, then the compute pattern is tried, then the template
pattern, and otherwise the string is returned unchanged as a literal. -/
def resolveV1 (opts : ResolverOptionsV1) (st : RegState) (ctx : Value)
    (scope : ComputeScope) (depth : Nat) (expr : Value) :
    Except RErr Value × RegState :=
  match expr with
  | .str s =>
    if opts.maxDepth < depth then (.error .recursionLimit, st)
    else
      match computeMatchV1 s with
      | some (name, dflt) => resolveComputeV1 opts st scope name dflt s
      | none =>
        match templateMatchV1 s with
        | some (path, dflt) => (resolveTemplateV1 opts ctx path dflt s, st)
        | none => (.ok (.str s), st)
  | v => (.ok v, st)

def defaultOptsV1 : ResolverOptionsV1 := {}

mutual

/-- Embedding of V1 ContextResolver.resolve_object: the depth check runs at
entry, dict values and list elements recurse with depth incremented, a
string leaf is handed to resolve at the same depth, and any other scalar is
returned unchanged.  Registry state threads left to right through the
children, and an error propagates with the mutations made so far. -/
def resolveObjectV1 (opts : ResolverOptionsV1) (ctx : Value) (scope : ComputeScope)
    (st : RegState) (depth : Nat) (v : Value) : Except RErr Value × RegState :=
  if opts.maxDepth < depth then (.error .recursionLimit, st)
  else
    match v with
    | .dict kvs =>
      match resolveDictV1 opts ctx scope st (depth + 1) kvs with
      | (.ok kvs2, st2) => (.ok (.dict kvs2), st2)
      | (.error e, st2) => (.error e, st2)
    | .list xs =>
      match resolveListV1 opts ctx scope st (depth + 1) xs with
      | (.ok xs2, st2) => (.ok (.list xs2), st2)
      | (.error e, st2) => (.error e, st2)
    | .str s => resolveV1 opts st ctx scope depth (.str s)
    | x => (.ok x, st)

/-- Children walk of resolve_object over dict entries, preserving key order. -/
def resolveDictV1 (opts : ResolverOptionsV1) (ctx : Value) (scope : ComputeScope)
    (st : RegState) (depth : Nat) (kvs : List (String × Value)) :
    Except RErr (List (String × Value)) × RegState :=
  match kvs with
  | [] => (.ok [], st)
  | (k, v) :: rest =>
    match resolveObjectV1 opts ctx scope st depth v with
    | (.ok v2, st2) =>
      match resolveDictV1 opts ctx scope st2 depth rest with
      | (.ok rest2, st3) => (.ok ((k, v2) :: rest2), st3)
      | (.error e, st3) => (.error e, st3)
    | (.error e, st2) => (.error e, st2)

/-- Children walk of resolve_object over list elements, preserving order. -/
def resolveListV1 (opts : ResolverOptionsV1) (ctx : Value) (scope : ComputeScope)
    (st : RegState) (depth : Nat) (xs : List Value) :
    Except RErr (List Value) × RegState :=
  match xs with
  | [] => (.ok [], st)
  | v :: rest =>
    match resolveObjectV1 opts ctx scope st depth v with
    | (.ok v2, st2) =>
      match resolveListV1 opts ctx scope st2 depth rest with
      | (.ok rest2, st3) => (.ok (v2 :: rest2), st3)
      | (.error e, st3) => (.error e, st3)
    | (.error e, st2) => (.error e, st2)

end

/-- The V2 missing-value strategies. -/
inductive MissingStrategyV2 where
  | KEEP
  | EMPTY
  | ERROR
  | DEFAULT
deriving DecidableEq, Repr

/-- V2 ResolverOptions: both fields optional, as in the source dataclass. -/
structure ResolverOptionsV2 where
  missingStrategy : Option MissingStrategyV2 := none
  throwOnError : Option Bool := none
deriving DecidableEq, Repr

/-- Python str.strip on both ends. -/
def stripStr (s : String) : String := String.mk (stripPySpace s.data)

/-- One character of the V2 placeholder validation class: word characters,
hyphen, dot, brackets and both quote characters. -/
def isPlaceholderChar (c : Char) : Bool :=
  c.isAlpha || c.isDigit || c = underscoreC || c = '-' || c = '.' ||
  c = '[' || c = ']' || c = dquoteC || c = squoteC

/-- Embedding of V2 validate_placeholder: an empty or all-whitespace
placeholder raises, a character outside the class raises, and a two-dot
sequence raises, all as ValidationError. -/
def validatePlaceholderV2 (p : String) : Except VErr Unit :=
  if p.data.isEmpty || (stripPySpace p.data).isEmpty then .error .validationError
  else if ¬ p.data.all isPlaceholderChar then .error .validationError
  else if containsSeq ['.', '.'] p.data then .error .validationError
  else .ok ()

/-- Embedding of the V2 parse_path character scan: quote tracking, bracket
tracking and dot splitting outside brackets, pushing the accumulated segment
at each boundary.  The accumulator is kept reversed. -/
def parsePathGo (inQuote : Option Char) (inBracket : Bool) (cur : List Char) :
    List Char → List (List Char)
  | [] => if cur.isEmpty then [] else [cur.reverse]
  | c :: rest =>
    match inQuote with
    | some q =>
      if c = q then parsePathGo none inBracket cur rest
      else parsePathGo (some q) inBracket (c :: cur) rest
    | none =>
      if isQuoteChar c then parsePathGo (some c) inBracket cur rest
      else if c = '[' then
        if cur.isEmpty then parsePathGo none true cur rest
        else cur.reverse :: parsePathGo none true [] rest
      else if c = ']' then
        if cur.isEmpty then parsePathGo none false cur rest
        else cur.reverse :: parsePathGo none false [] rest
      else if c = '.' && ¬ inBracket then
        if cur.isEmpty then parsePathGo none inBracket cur rest
        else cur.reverse :: parsePathGo none inBracket [] rest
      else parsePathGo inQuote inBracket (c :: cur) rest

/-- Embedding of V2 parse_path. -/
def parsePathV2 (s : String) : List String :=
  (parsePathGo none false [] s.data).map String.mk

/-- Embedding of V2 handle_missing: KEEP rebuilds the placeholder from the
key, ERROR raises MissingValueError, DEFAULT returns the provided default or
the empty string, and EMPTY returns the empty string. -/
def handleMissingV2 (key : String) (strategy : MissingStrategyV2) (dflt : Option String) :
    Except VErr String :=
  match strategy with
  | .KEEP => .ok ("\x7b\x7b" ++ key ++ "\x7d\x7d")
  | .ERROR => .error .missingValueError
  | .DEFAULT => .ok (dflt.getD "")
  | .EMPTY => .ok ""

def backslashC : Char := Char.ofNat 92

/-- JSON string escaping for the characters appearing in values here:
backslash, double quote and the common control characters; other control
characters would take unicode escapes, which no input here contains. -/
def jsonEscape (s : String) : String :=
  String.mk (s.data.foldr (fun c acc =>
    if c = backslashC then backslashC :: backslashC :: acc
    else if c = dquoteC then backslashC :: dquoteC :: acc
    else if c = Char.ofNat 10 then backslashC :: 'n' :: acc
    else if c = Char.ofNat 13 then backslashC :: 'r' :: acc
    else if c = Char.ofNat 9 then backslashC :: 't' :: acc
    else c :: acc) [])

mutual

/-- Python json.dumps with default separators on the JSON-like values; the
float case emits the carried literal text, which no claim exercises. -/
def jsonDumps : Value → String
  | .null => "null"
  | .bool true => "true"
  | .bool false => "false"
  | .int n => toString n
  | .float lit => lit
  | .str s => String.mk [dquoteC] ++ jsonEscape s ++ String.mk [dquoteC]
  | .list xs => "[" ++ jsonDumpsList xs ++ "]"
  | .dict kvs => "\x7b" ++ jsonDumpsDict kvs ++ "\x7d"

/-- Comma-joined dump of list elements. -/
def jsonDumpsList : List Value → String
  | [] => ""
  | [x] => jsonDumps x
  | x :: y :: rest => jsonDumps x ++ ", " ++ jsonDumpsList (y :: rest)

/-- Comma-joined dump of dict entries. -/
def jsonDumpsDict : List (String × Value) → String
  | [] => ""
  | [(k, v)] => String.mk [dquoteC] ++ jsonEscape k ++ String.mk [dquoteC] ++ ": " ++ jsonDumps v
  | (k, v) :: kv2 :: rest =>
    String.mk [dquoteC] ++ jsonEscape k ++ String.mk [dquoteC] ++ ": " ++ jsonDumps v ++
      ", " ++ jsonDumpsDict (kv2 :: rest)

end

/-- Embedding of V2 to_string: None becomes the empty string, dicts and
lists are JSON-dumped, booleans print Python-style, and other scalars print
as Python str; the float case returns the carried literal text, which no
claim exercises. -/
def toStringV2 : Value → String
  | .null => ""
  | .dict kvs => jsonDumps (.dict kvs)
  | .list xs => jsonDumps (.list xs)
  | .bool true => "True"
  | .bool false => "False"
  | .int n => toString n
  | .float lit => lit
  | .str s => s

/-- Embedding of the segment walk inside the V2 replacer: a segment starting
with an underscore raises SecurityError before anything else; a None current
value ends the walk early with None; a list indexes with a bounds check when
the segment is all digits and yields None otherwise; a dict does a get; any
other value has no attribute named by a data key in the JSON-like model, so
the walk ends early with None. -/
def walkV2 : Value → List String → Except VErr Value
  | cur, [] => .ok cur
  | cur, seg :: rest =>
    if headIsUnderscore seg then .error .securityError
    else if cur = .null then .ok .null
    else
      match cur with
      | .list xs =>
        if isDigitStr seg then
          let idx := digitsToNat seg.data
          walkV2 (if h : idx < xs.length then xs.get ⟨idx, h⟩ else .null) rest
        else walkV2 .null rest
      | .dict kvs => walkV2 ((dictGet kvs seg).getD .null) rest
      | .null => .ok .null
      | .bool _b => .ok .null
      | .int _n => .ok .null
      | .float _l => .ok .null
      | .str _t => .ok .null

/-- Does the string start and end with the given quote character, as the
Python startswith and endswith pair. -/
def quoteWrapped (s : String) (q : Char) : Bool :=
  match s.data with
  | [] => false
  | c :: _ =>
    c = q &&
      (match s.data.getLast? with
       | some d => d = q
       | none => false)

/-- Python pipe-join of string parts. -/
def joinPipe (parts : List String) : String :=
  String.intercalate (String.mk [pipeC]) parts

/-- The key and optional inline default of one placeholder, as the V2
replacer computes them: when a pipe is present, the key is the stripped
first part and the default the stripped pipe-rejoin of the rest, with one
layer of quotes removed when the default both starts and ends with the same
quote character. -/
def splitKeyDefault (raw : String) : String × Option String :=
  if containsSeq [pipeC] raw.data then
    match (splitOnChar pipeC raw.data).map String.mk with
    | [] => (raw, none)
    | p0 :: ps =>
      let dp := stripStr (joinPipe ps)
      let dv :=
        if quoteWrapped dp dquoteC || quoteWrapped dp squoteC then
          String.mk ((dp.data.drop 1).dropLast)
        else dp
      (stripStr p0, some dv)
  else (raw, none)

/-- The body of the V2 replacer for one placeholder, before error handling:
validate the key, parse and walk the path, then return the inline default
verbatim and uncoerced when the walk came back None, or the missing-strategy
result, or the stringified value. -/
def replacerCoreV2 (ctx : Value) (strategy : MissingStrategyV2)
    (key : String) (dflt : Option String) : Except VErr String := do
  let _ ← validatePlaceholderV2 key
  let cur ← walkV2 ctx (parsePathV2 key)
  if cur = .null then
    match dflt with
    | some d => pure d
    | none => handleMissingV2 key strategy none
  else pure (toStringV2 cur)

/-- One replacer call of the V2 resolver: the raw inner text is stripped and
split into key and default, the body runs, and a raised error is caught and
replaced by the whole original token unless throw_on_error is set. -/
def replacerV2 (ctx : Value) (strategy : MissingStrategyV2) (throwOnError : Bool)
    (inner : List Char) : Except VErr String :=
  let raw := stripStr (String.mk inner)
  let kd := splitKeyDefault raw
  match replacerCoreV2 ctx strategy kd.1 kd.2 with
  | .ok s => .ok s
  | .error e =>
    if throwOnError then .error e
    else .ok ("\x7b\x7b" ++ String.mk inner ++ "\x7d\x7d")

/-- Dropping a satisfied head never lengthens a list. -/
theorem lengthDropWhileLe {α : Type} (p : α → Bool) :
    ∀ l : List α, (l.dropWhile p).length ≤ l.length := by
  intro l
  induction l with
  | nil => simp [List.dropWhile]
  | cons a as ih =>
    simp only [List.dropWhile]
    split
    · exact Nat.le_succ_of_le ih
    · simp

/-- One match attempt of the re.sub brace pattern at the head of the scan:
two opening braces, a nonempty run of characters other than a closing brace,
and two closing braces.  Returns the inner run and the remainder after the
match.  The run is greedy; since it cannot contain a closing brace, the only
candidate closing position is the first closing brace, so no backtracking
arises. -/
def matchAtHead (l : List Char) : Option (List Char × List Char) :=
  match l with
  | c1 :: c2 :: rest2 =>
    if c1 = lbraceC && c2 = lbraceC then
      let run := rest2.takeWhile (fun d => ¬ d = rbraceC)
      let after := rest2.dropWhile (fun d => ¬ d = rbraceC)
      if ¬ run.isEmpty && listStartsWith after [rbraceC, rbraceC] then
        some (run, after.drop 2)
      else none
    else none
  | _ => none

/-- The remainder after a successful head match is strictly shorter. -/
theorem matchAtHeadRestLt {l run rem : List Char} (h : matchAtHead l = some (run, rem)) :
    rem.length < l.length := by
  match l with
  | [] => simp [matchAtHead] at h
  | [c] => simp [matchAtHead] at h
  | c1 :: c2 :: rest2 =>
    simp only [matchAtHead] at h
    split at h
    · split at h
      · simp only [Option.some.injEq, Prod.mk.injEq] at h
        obtain ⟨h1, h2⟩ := h
        subst h2
        have hd := lengthDropWhileLe (fun d => ¬ d = rbraceC) rest2
        simp only [List.length_cons, List.length_drop]
        omega
      · simp at h
    · simp at h

/-- The scan of Python re.sub with the brace pattern of the V2 resolver: at
each position a head match is attempted; on a match the replacement is
spliced in and scanning continues after the match, otherwise one character
is copied and scanning moves one position on.  A raise from the replacer
aborts the whole scan.  The fuel argument only makes the recursion
structural: every step keeps the scanned list length at most the fuel, and
matchAtHeadRestLt shows a match strictly shortens the list, so the
fuel-exhausted arm is unreachable from the wrapper below. -/
def subScanV2 (repl : List Char → Except VErr String) : Nat → List Char → Except VErr (List Char)
  | _, [] => .ok []
  | 0, _ :: _ => .ok []
  | fuel + 1, c :: rest =>
    match matchAtHead (c :: rest) with
    | some (run, rem) =>
      match repl run with
      | .ok r =>
        match subScanV2 repl fuel rem with
        | .ok tail => .ok (r.data ++ tail)
        | .error e => .error e
      | .error e => .error e
    | none =>
      match subScanV2 repl fuel rest with
      | .ok tail => .ok (c :: tail)
      | .error e => .error e

/-- Embedding of V2 TemplateResolver.resolve: the effective options default
to the EMPTY strategy and no throwing, and every brace placeholder in the
template is rewritten by the replacer. -/
def resolveV2 (template : String) (ctx : Value) (options : Option ResolverOptionsV2) :
    Except VErr String :=
  let strategy := (options.bind (fun o => o.missingStrategy)).getD .EMPTY
  let throw := (options.bind (fun o => o.throwOnError)).getD false
  match subScanV2 (replacerV2 ctx strategy throw) template.data.length template.data with
  | .ok l => .ok (String.mk l)
  | .error e => .error e

mutual

/-- Embedding of the V2 batch resolve_object: past depth ten the object is
returned unchanged with no error raised, strings go through the string
resolver, lists and dicts recurse with depth incremented, and other scalars
pass through. -/
def batchResolveObjectV2 (ctx : Value) (options : Option ResolverOptionsV2)
    (depth : Nat) (obj : Value) : Except VErr Value :=
  if 10 < depth then .ok obj
  else
    match obj with
    | .str s =>
      match resolveV2 s ctx options with
      | .ok r => .ok (.str r)
      | .error e => .error e
    | .list xs =>
      match batchListV2 ctx options (depth + 1) xs with
      | .ok ys => .ok (.list ys)
      | .error e => .error e
    | .dict kvs =>
      match batchDictV2 ctx options (depth + 1) kvs with
      | .ok kvs2 => .ok (.dict kvs2)
      | .error e => .error e
    | x => .ok x

/-- List walk of the V2 batch resolve_object. -/
def batchListV2 (ctx : Value) (options : Option ResolverOptionsV2)
    (depth : Nat) (xs : List Value) : Except VErr (List Value) :=
  match xs with
  | [] => .ok []
  | v :: rest =>
    match batchResolveObjectV2 ctx options depth v with
    | .ok v2 =>
      match batchListV2 ctx options depth rest with
      | .ok rest2 => .ok (v2 :: rest2)
      | .error e => .error e
    | .error e => .error e

/-- Dict walk of the V2 batch resolve_object, preserving key order. -/
def batchDictV2 (ctx : Value) (options : Option ResolverOptionsV2)
    (depth : Nat) (kvs : List (String × Value)) : Except VErr (List (String × Value)) :=
  match kvs with
  | [] => .ok []
  | (k, v) :: rest =>
    match batchResolveObjectV2 ctx options depth v with
    | .ok v2 =>
      match batchDictV2 ctx options depth rest with
      | .ok rest2 => .ok ((k, v2) :: rest2)
      | .error e => .error e
    | .error e => .error e

end

/-- State of a V2 ComputeRegistry instance: the name-to-function table and
the per-name invocation counter; this registry has no result cache. -/
structure RegStateV2 where
  functions : String → Option RegFn
  counts : String → Nat

/-- A fresh V2 registry. -/
def emptyRegStateV2 : RegStateV2 :=
  { functions := fun _ => none, counts := fun _ => 0 }

/-- Embedding of V2 ComputeRegistry.register: an empty or pattern-failing
name raises ValueError, a name already registered raises ValueError, and
otherwise the entry is stored. -/
def registerV2 (st : RegStateV2) (name : String) (fn : RegFn) : Except Unit RegStateV2 :=
  if ¬ nameOk name then .error ()
  else if (st.functions name).isSome then .error ()
  else .ok { st with functions := upd st.functions name (some fn) }

/-- Embedding of V2 ComputeRegistry.resolve: an unknown name raises
ComputeFunctionError, and otherwise the callable runs unconditionally at its
current invocation index with exceptions wrapped as ComputeFunctionError.
There is no cache read or write anywhere in this registry; the scope tag is
stored but never consulted during resolution. -/
def registryResolveV2 (st : RegStateV2) (name : String) : Except VErr Value × RegStateV2 :=
  match st.functions name with
  | none => (.error .computeFunctionError, st)
  | some rf =>
    let idx := st.counts name
    let st1 := { st with counts := upd st.counts name (idx + 1) }
    match rf.behavior idx with
    | .ok v => (.ok v, st1)
    | .exn => (.error .computeFunctionError, st1)

/-- Embedding of the V2 COMPUTE_PATTERN regex: optional whitespace, the
braced fn-prefixed word of one or more word characters, optional
whitespace, matching the whole string. -/
def computeMatchV2 (s : String) : Option String :=
  match dropPre computeHead (s.data.dropWhile isPySpace) with
  | none => none
  | some rest =>
    let w := rest.takeWhile isNameChar
    if w.isEmpty then none
    else
      match dropPre [rbraceC, rbraceC] (rest.dropWhile isNameChar) with
      | some tl => if tl.all isPySpace then some (String.mk w) else none
      | none => none

/-- Embedding of V2 ContextResolver.resolve: a compute pattern goes to the
registry it owns, and anything else to the template resolver.  The options
argument stands for the effective options after the source's fallback to
the instance default. -/
def ctxResolveV2 (st : RegStateV2) (expr : String) (ctx : Value)
    (options : Option ResolverOptionsV2) : Except VErr Value × RegStateV2 :=
  match computeMatchV2 expr with
  | some name =>
    match registryResolveV2 st name with
    | (.ok v, st2) => (.ok v, st2)
    | (.error e, st2) => (.error e, st2)
  | none =>
    match resolveV2 expr ctx options with
    | .ok s => (.ok (.str s), st)
    | .error e => (.error e, st)

mutual

/-- Depth of the deepest node resolve_object visits below this value: zero
for leaves, one more than the deepest child for containers. -/
def visitDepth : Value → Nat
  | .dict kvs => visitDepthDict kvs
  | .list xs => visitDepthList xs
  | _ => 0

/-- Deepest visit depth over dict entries. -/
def visitDepthDict : List (String × Value) → Nat
  | [] => 0
  | (_, v) :: rest => max (visitDepth v + 1) (visitDepthDict rest)

/-- Deepest visit depth over list elements. -/
def visitDepthList : List Value → Nat
  | [] => 0
  | v :: rest => max (visitDepth v + 1) (visitDepthList rest)

end

/-- A string that neither pattern of the V1 resolver matches: resolve
returns it unchanged as a literal. -/
def plainString (s : String) : Bool :=
  (computeMatchV1 s).isNone && (templateMatchV1 s).isNone

mutual

/-- A tree whose string leaves are all plain literals for the V1 resolver:
resolving such a tree touches no registry state and can fail only by depth. -/
def plainTree : Value → Bool
  | .str s => plainString s
  | .dict kvs => plainTreeDict kvs
  | .list xs => plainTreeList xs
  | _ => true

/-- Plain-literal condition over dict entries. -/
def plainTreeDict : List (String × Value) → Bool
  | [] => true
  | (_, v) :: rest => plainTree v && plainTreeDict rest

/-- Plain-literal condition over list elements. -/
def plainTreeList : List Value → Bool
  | [] => true
  | v :: rest => plainTree v && plainTreeList rest

end

/-- A chain of singleton dicts of the given height over a template leaf,
the shape used to probe depth limits. -/
def nestDict : Nat → Value
  | 0 => .str "\x7b\x7ba\x7d\x7d"
  | n + 1 => .dict [("k", nestDict n)]

/-- Run a sequence of V1 registry resolutions for their state effects. -/
def runResolvesV1 (st : RegState) (ns : List String) : RegState :=
  ns.foldl (fun s n => (registryResolveV1 s n).2) st

/-- A STARTUP-scoped callable returning the integer five on every call. -/
def fnStartupInt : RegFn := { behavior := fun _ => .ok (.int 5), scope := .STARTUP }

/-- A STARTUP-scoped callable returning None on every call. -/
def fnStartupNull : RegFn := { behavior := fun _ => .ok .null, scope := .STARTUP }

/-- A REQUEST-scoped callable returning the integer one on every call. -/
def fnRequestInt : RegFn := { behavior := fun _ => .ok (.int 1), scope := .REQUEST }

/-- A V1 registry holding the STARTUP function f and the REQUEST function g. -/
def stFG : RegState :=
  { functions := fun n =>
      if n = "g" then some fnRequestInt
      else if n = "f" then some fnStartupInt
      else none
    cache := fun _ => none
    counts := fun _ => 0 }

/-- A V1 registry holding only the None-returning STARTUP function f. -/
def stNullF : RegState :=
  { functions := fun n => if n = "f" then some fnStartupNull else none
    cache := fun _ => none
    counts := fun _ => 0 }

/-- A V2 registry holding only the STARTUP function f. -/
def stV2F : RegStateV2 :=
  { functions := fun n => if n = "f" then some fnStartupInt else none
    counts := fun _ => 0 }

/-- A sample STARTUP registered function for the register counterexample. -/
def c8fn1 : RegFn := { behavior := fun _ => .ok (.int 1), scope := .STARTUP }

/-- A second function registered under the same name. -/
def c8fn2 : RegFn := { behavior := fun _ => .ok (.int 2), scope := .REQUEST }

/-- The V1 registry after the first registration of f. -/
def c8st1 : RegState :=
  match registerV1 emptyRegState "f" c8fn1 with
  | .ok s => s
  | .error _ => emptyRegState

/-- The outcome of registering a second function under the name f in V1. -/
def c8res2 : Except Unit RegState := registerV1 c8st1 "f" c8fn2

/-- Number of occurrences of a name in a resolution sequence. -/
def countOcc (g : String) : List String → Nat
  | [] => 0
  | n :: ns => (if n = g then 1 else 0) + countOcc g ns

/-- Invariant of the V1 STARTUP caching discipline for one function: either
the cache is empty and the callable has never run, or the first result is
cached and the callable has run exactly once. -/
def StartupInv (f : String) (rf : RegFn) (v0 : Value) (st : RegState) : Prop :=
  st.functions f = some rf ∧
    ((st.cache f = none ∧ st.counts f = 0) ∨ (st.cache f = some v0 ∧ st.counts f = 1))

/-- The f-and-g registry with the value of f already cached. -/
def stFGc : RegState :=
  { stFG with cache := fun n => if n = "f" then some (.int 5) else none }

example : validatePath "obj.__proto__" = .error .securityBlockedPath := by decide

example : validatePath "a..b" = .error .securityBlockedPath := by decide

example : validatePath "_private" = .error .securityBlockedPath := by decide

example : validatePath "a.b.c" = .ok () := by decide

example : validatePath "" = .error .securityBlockedPath := by decide

example : validatePath "a._b" = .error .securityBlockedPath := by decide

example : computeMatchV1 "\x7b\x7bfn:g\x7d\x7d" = some ("g", none) := by decide

example : computeMatchV1 "\x7b\x7bfn:get_port | \x2780\x27\x7d\x7d" = some ("get_port", some "80") := by decide

example : templateMatchV1 "\x7b\x7bmissing | \x2742\x27\x7d\x7d" = some ("missing", some "42") := by decide

example : templateMatchV1 "\x7b\x7ba.b\x7d\x7d" = some ("a.b", none) := by decide

example : templateMatchV1 "\x7b\x7bitems[0]\x7d\x7d" = none := by decide

example : computeMatchV1 "\x7b\x7ba.b\x7d\x7d" = none := by decide

example : templateMatchV1 "\x7b\x7b_private\x7d\x7d" = some ("_private", none) := by decide

example : floatParsable "3.14" = true := by decide

example : floatParsable "1e3" = true := by decide

example : floatParsable "-5" = true := by decide

example : floatParsable "inf" = true := by decide

example : floatParsable "1_000.5" = true := by decide

example : floatParsable "abc" = false := by decide

example : floatParsable "1.2.3" = false := by decide

example : floatParsable "1e" = false := by decide

example : floatParsable "" = false := by decide

example : floatParsable "." = false := by decide

example : parseDefaultV1 "42" = .int 42 := by decide

example : parseDefaultV1 "TRUE" = .bool true := by decide

example : parseDefaultV1 "3.14" = .float "3.14" := by decide

example : parseDefaultV1 "1e3" = .float "1e3" := by decide

example : parseDefaultV1 "hello" = .str "hello" := by decide

example : getValueByPath (.dict [("a", .dict [("b", .str "x")])]) "a.b" = .str "x" := by decide

example : getValueByPath (.dict [("a", .null)]) "a" = .null := by decide

example : getValueByPath (.dict []) "missing" = .null := by decide

example :
    resolveV1 defaultOptsV1 emptyRegState (.dict []) .REQUEST 0
      (.str "\x7b\x7bmissing | \x2742\x27\x7d\x7d") =
    (.ok (.int 42), emptyRegState) := rfl

example :
    resolveV1 defaultOptsV1 emptyRegState (.dict []) .REQUEST 0
      (.str "\x7b\x7bmissing\x7d\x7d") =
    (.ok (.str "\x7b\x7bmissing\x7d\x7d"), emptyRegState) := rfl

example :
    resolveV1 defaultOptsV1 emptyRegState (.dict [("items", .list [.int 7])]) .REQUEST 0
      (.str "\x7b\x7bitems[0]\x7d\x7d") =
    (.ok (.str "\x7b\x7bitems[0]\x7d\x7d"), emptyRegState) := rfl

example :
    resolveV1 defaultOptsV1 emptyRegState (.dict [("a", .null)]) .REQUEST 0
      (.str "\x7b\x7ba | \x27x\x27\x7d\x7d") =
    (.ok (.str "x"), emptyRegState) := rfl

example :
    resolveV1 defaultOptsV1 emptyRegState (.dict [("a", .dict [("b", .str "x")])]) .REQUEST 0
      (.str "\x7b\x7ba.b\x7d\x7d") =
    (.ok (.str "x"), emptyRegState) := rfl

example :
    resolveV1 defaultOptsV1 emptyRegState (.dict []) .REQUEST 0
      (.str "\x7b\x7b_private\x7d\x7d") =
    (.error .securityBlockedPath, emptyRegState) := rfl

example : parsePathV2 "items[0]" = ["items", "0"] := by decide

example : parsePathV2 "a.b.c" = ["a", "b", "c"] := by decide

example : resolveV2 "\x7b\x7ba\x7d\x7d" (.dict [("a", .str "x")]) none = .ok "x" := rfl

example :
    resolveV2 "Hello \x7b\x7bname\x7d\x7d!" (.dict [("name", .str "W")]) none =
      .ok "Hello W!" := rfl

example :
    resolveV2 "\x7b\x7bmissing | \x2742\x27\x7d\x7d" (.dict []) none = .ok "42" := rfl

example : computeMatchV2 "\x7b\x7bfn:get_port\x7d\x7d" = some "get_port" := by decide

example : computeMatchV2 " \x7b\x7bfn:f\x7d\x7d " = some "f" := by decide

example : computeMatchV2 "\x7b\x7ba.b\x7d\x7d" = none := by decide

theorem validatePathSegOffends (path seg : String) (hmem : seg ∈ splitDots path)
    (hoff : segmentOffends seg = true) :
    validatePath path = .error .securityBlockedPath := by
  unfold validatePath
  split
  · rfl
  · split
    · rfl
    · split
      · rfl
      · rename_i hany
        exact absurd (List.any_eq_true.mpr ⟨seg, hmem, hoff⟩) (by simpa using hany)

theorem validatePathDotDot (path : String) (h : hasDotDot path = true) :
    validatePath path = .error .securityBlockedPath := by
  unfold validatePath
  split
  · rfl
  · split
    · rfl
    · split
      · rfl
      · simp [h]

theorem resolveV1TemplateSecurity (opts : ResolverOptionsV1) (st : RegState) (ctx : Value)
    (scope : ComputeScope) (s path : String) (dflt : Option String) (e : RErr)
    (hcm : computeMatchV1 s = none) (htm : templateMatchV1 s = some (path, dflt))
    (hval : validatePath path = .error e) :
    resolveV1 opts st ctx scope 0 (.str s) = (.error e, st) := by
  simp [resolveV1, hcm, htm, resolveTemplateV1, hval]

theorem resolveV2SecuritySwallow (ctx : Value) (strat : MissingStrategyV2) :
    resolveV2 "\x7b\x7b_private\x7d\x7d" ctx
        (some { missingStrategy := some strat, throwOnError := some true }) =
      .error .securityError ∧
    resolveV2 "\x7b\x7b_private\x7d\x7d" ctx
        (some { missingStrategy := some strat, throwOnError := some false }) =
      .ok "\x7b\x7b_private\x7d\x7d" :=
  ⟨rfl, rfl⟩

/-- C1: V1 validate_path rejects the empty path, any blocked dot-delimited
segment, any segment starting with an underscore, and any path containing
two consecutive dots, while accepting a.b.c; a SecurityError raised by
validation propagates out of the V1 resolve for template expressions under
every missing strategy; in the V2 resolver a SecurityError propagates only
when throw_on_error is set and is otherwise replaced by the original token. -/
theorem C1_security_validation :
    (validatePath "" = .error .securityBlockedPath) ∧
    (∀ path seg, seg ∈ splitDots path → blockedSegments.contains seg = true →
      validatePath path = .error .securityBlockedPath) ∧
    (∀ path seg, seg ∈ splitDots path → headIsUnderscore seg = true →
      validatePath path = .error .securityBlockedPath) ∧
    (∀ path, hasDotDot path = true → validatePath path = .error .securityBlockedPath) ∧
    (validatePath "a.b.c" = .ok ()) ∧
    (∀ (opts : ResolverOptionsV1) (st : RegState) (ctx : Value) (scope : ComputeScope)
       (s path : String) (dflt : Option String) (e : RErr),
      computeMatchV1 s = none → templateMatchV1 s = some (path, dflt) →
      validatePath path = .error e →
      resolveV1 opts st ctx scope 0 (.str s) = (.error e, st)) ∧
    (∀ (ctx : Value) (strat : MissingStrategyV2),
      resolveV2 "\x7b\x7b_private\x7d\x7d" ctx
          (some { missingStrategy := some strat, throwOnError := some true }) =
        .error .securityError ∧
      resolveV2 "\x7b\x7b_private\x7d\x7d" ctx
          (some { missingStrategy := some strat, throwOnError := some false }) =
        .ok "\x7b\x7b_private\x7d\x7d") := by
  refine ⟨by decide, ?_, ?_, validatePathDotDot, by decide, resolveV1TemplateSecurity, resolveV2SecuritySwallow⟩
  · intro path seg hmem hblk
    exact validatePathSegOffends path seg hmem
      (by simp only [segmentOffends, hblk, Bool.true_or])
  · intro path seg hmem hund
    exact validatePathSegOffends path seg hmem (by simp [segmentOffends, hund])

/-- C1 counterexample: with default options the V2 resolver swallows the
SecurityError its walk raised for the underscore path and returns the
original token, refuting unconditional propagation. -/
theorem C1_security_validation_counterexample :
    replacerCoreV2 (.dict []) .EMPTY "_private" none = .error .securityError ∧
    resolveV2 "\x7b\x7b_private\x7d\x7d" (.dict []) none = .ok "\x7b\x7b_private\x7d\x7d" :=
  ⟨rfl, rfl⟩

/-- C1 witness: the security facts at concrete inputs. -/
theorem C1_security_validation_witness :
    validatePath "obj.__proto__" = .error .securityBlockedPath ∧
    validatePath "x._p" = .error .securityBlockedPath ∧
    validatePath "a..b" = .error .securityBlockedPath ∧
    resolveV1 defaultOptsV1 emptyRegState (.dict []) .REQUEST 0 (.str "\x7b\x7b_private\x7d\x7d") =
      (.error .securityBlockedPath, emptyRegState) ∧
    resolveV2 "\x7b\x7b_private\x7d\x7d" (.dict [])
        (some { missingStrategy := some .ERROR, throwOnError := some false }) =
      .ok "\x7b\x7b_private\x7d\x7d" :=
  ⟨C1_security_validation.2.1 "obj.__proto__" "__proto__" (by decide) (by decide),
   C1_security_validation.2.2.1 "x._p" "_p" (by decide) (by decide),
   C1_security_validation.2.2.2.1 "a..b" (by decide),
   C1_security_validation.2.2.2.2.2.1 defaultOptsV1 emptyRegState (.dict []) .REQUEST
     "\x7b\x7b_private\x7d\x7d" "_private" none .securityBlockedPath (by decide) (by decide)
     (by decide),
   (C1_security_validation.2.2.2.2.2.2 (.dict []) .ERROR).2⟩

theorem dropPreAppend {α : Type} [DecidableEq α] (p l : List α) : dropPre p (p ++ l) = some l := by
  induction p with
  | nil => rfl
  | cons a as ih => simp [dropPre, ih]

theorem takeWhileAppendAll {α : Type} (p : α → Bool) (l s : List α) (h : l.all p = true) :
    (l ++ s).takeWhile p = l ++ s.takeWhile p := by
  induction l with
  | nil => simp
  | cons a as ih =>
    simp only [List.all_cons, Bool.and_eq_true] at h
    simp [List.takeWhile, h.1, ih h.2]

theorem dropWhileAppendAll {α : Type} (p : α → Bool) (l s : List α) (h : l.all p = true) :
    (l ++ s).dropWhile p = s.dropWhile p := by
  induction l with
  | nil => simp
  | cons a as ih =>
    simp only [List.all_cons, Bool.and_eq_true] at h
    simp [List.dropWhile, h.1, ih h.2]

theorem nameStartIsNameChar {c : Char} (h : isNameStartChar c = true) : isNameChar c = true := by
  simp only [isNameStartChar, Bool.or_eq_true] at h
  rcases h with h | h <;> simp [isNameChar, h]

theorem strFnData (g : String) :
    ("\x7b\x7bfn:" ++ g ++ "\x7d\x7d").data = computeHead ++ (g.data ++ [rbraceC, rbraceC]) := by
  have h1 : ("\x7b\x7bfn:" ++ g ++ "\x7d\x7d").data = "\x7b\x7bfn:".data ++ g.data ++ "\x7d\x7d".data := by
    rw [String.data_append, String.data_append]
  rw [h1]
  have h2 : "\x7b\x7bfn:".data = computeHead := by decide
  have h3 : "\x7d\x7d".data = [rbraceC, rbraceC] := by decide
  rw [h2, h3, List.append_assoc]

theorem computeMatchFn (g : String) (h : nameOk g = true) :
    computeMatchV1 ("\x7b\x7bfn:" ++ g ++ "\x7d\x7d") = some (g, none) := by
  obtain ⟨gd⟩ := g
  match hgd : gd with
  | [] => rw [nameOk] at h; simp at h
  | c :: cs =>
    rw [nameOk] at h
    simp only [Bool.and_eq_true] at h
    obtain ⟨hc, hcs⟩ := h
    have hall : (c :: cs).all isNameChar = true := by
      simp [List.all_cons, nameStartIsNameChar hc, hcs]
    have h0 : List.takeWhile isNameChar [rbraceC, rbraceC] = [] := by decide
    have h1 : List.dropWhile isNameChar [rbraceC, rbraceC] = [rbraceC, rbraceC] := by decide
    have htw : List.takeWhile isNameChar ((c :: cs) ++ [rbraceC, rbraceC]) = c :: cs := by
      rw [takeWhileAppendAll _ _ _ hall, h0, List.append_nil]
    have hdw : List.dropWhile isNameChar ((c :: cs) ++ [rbraceC, rbraceC]) = [rbraceC, rbraceC] := by
      rw [dropWhileAppendAll _ _ _ hall, h1]
    unfold computeMatchV1
    rw [strFnData, dropPreAppend]
    simp only [List.cons_append] at htw hdw ⊢
    rw [htw, hdw]
    simp only [hc, if_true]
    rw [show matchDefaultSuffix [rbraceC, rbraceC] = some none from by decide]

theorem registryResolveNoScopeErr (st : RegState) (f : String) :
    (registryResolveV1 st f).1 ≠ .error .scopeViolation := by
  unfold registryResolveV1
  split
  · simp
  · split
    · simp
    · split
      · rename_i o rfn heq sc cv himp hsc
        cases hb : rfn.behavior (st.counts f) <;> simp [hb]
      · rename_i o rfn heq sc cv himp hsc
        cases hb : rfn.behavior (st.counts f) <;> simp [hb]

/-- C2: in the V1 context resolver a registered REQUEST-scoped function
resolved at STARTUP scope raises ScopeViolationError, while a registered
STARTUP-scoped function resolved at REQUEST scope never raises it: a cached
value is returned as is, and an uncached first invocation that succeeds
returns its value. -/
theorem C2_scope_rules :
    (∀ (opts : ResolverOptionsV1) (st : RegState) (ctx : Value) (g : String) (rg : RegFn),
      nameOk g = true → st.functions g = some rg → rg.scope = .REQUEST →
      resolveV1 opts st ctx .STARTUP 0 (.str ("\x7b\x7bfn:" ++ g ++ "\x7d\x7d")) =
        (.error .scopeViolation, st)) ∧
    (∀ (opts : ResolverOptionsV1) (st : RegState) (ctx : Value) (f : String) (rf : RegFn),
      nameOk f = true → st.functions f = some rf → rf.scope = .STARTUP →
      (∀ v, st.cache f = some v →
        resolveV1 opts st ctx .REQUEST 0 (.str ("\x7b\x7bfn:" ++ f ++ "\x7d\x7d")) = (.ok v, st)) ∧
      (∀ v, st.cache f = none → rf.behavior (st.counts f) = .ok v →
        (resolveV1 opts st ctx .REQUEST 0 (.str ("\x7b\x7bfn:" ++ f ++ "\x7d\x7d"))).1 = .ok v) ∧
      (resolveV1 opts st ctx .REQUEST 0 (.str ("\x7b\x7bfn:" ++ f ++ "\x7d\x7d"))).1 ≠
        .error .scopeViolation) := by
  constructor
  · intro opts st ctx g rg hname hfun hscope
    simp [resolveV1, computeMatchFn g hname, resolveComputeV1, hfun, hscope]
  · intro opts st ctx f rf hname hfun hscope
    refine ⟨?_, ?_, ?_⟩
    · intro v hcache
      simp [resolveV1, computeMatchFn f hname, resolveComputeV1, hfun, hscope,
        registryResolveV1, hcache]
    · intro v hcache hb
      simp [resolveV1, computeMatchFn f hname, resolveComputeV1, hfun, hscope,
        registryResolveV1, hcache, hb]
    · simp only [resolveV1, computeMatchFn f hname, resolveComputeV1, hfun, hscope]
      simp only [Nat.not_lt_zero, if_false]
      rcases hr : registryResolveV1 st f with ⟨res, st2⟩
      cases res with
      | ok v => simp
      | error e =>
        have hne := registryResolveNoScopeErr st f
        rw [hr] at hne
        simp only at hne
        simp
        intro heq
        exact absurd (heq ▸ rfl) hne

/-- C2 witness: with a registry holding REQUEST-scoped g and STARTUP-scoped
f, resolving g at STARTUP scope raises the scope violation and resolving f
at REQUEST scope returns its value. -/
theorem C2_scope_rules_witness :
    resolveV1 defaultOptsV1 stFG (.dict []) .STARTUP 0 (.str "\x7b\x7bfn:g\x7d\x7d") =
      (.error .scopeViolation, stFG) ∧
    (resolveV1 defaultOptsV1 stFG (.dict []) .REQUEST 0 (.str "\x7b\x7bfn:f\x7d\x7d")).1 =
      .ok (.int 5) :=
  ⟨C2_scope_rules.1 defaultOptsV1 stFG (.dict []) "g" fnRequestInt (by decide) rfl rfl,
   (C2_scope_rules.2 defaultOptsV1 stFG (.dict []) "f" fnStartupInt (by decide) rfl rfl).2.1
     (.int 5) rfl rfl⟩

theorem updSame {β : Type} (f : String → β) (n : String) (b : β) : upd f n b n = b := by
  simp [upd]

theorem updOther {β : Type} (f : String → β) (n m : String) (b : β) (h : m ≠ n) :
    upd f n b m = f m := by
  simp [upd, h]

theorem registryResolvePreservesFunctions (st : RegState) (n : String) :
    (registryResolveV1 st n).2.functions = st.functions := by
  unfold registryResolveV1
  split
  · rfl
  · split
    · rfl
    · split
      · rename_i o rfn heq sc cv himp hsc
        cases hb : rfn.behavior (st.counts n) <;> simp [hb]
      · rename_i o rfn heq sc cv himp hsc
        cases hb : rfn.behavior (st.counts n) <;> simp [hb]

theorem registryResolveOtherName (st : RegState) (n m : String) (h : m ≠ n) :
    (registryResolveV1 st n).2.cache m = st.cache m ∧
    (registryResolveV1 st n).2.counts m = st.counts m := by
  unfold registryResolveV1
  split
  · exact ⟨rfl, rfl⟩
  · split
    · exact ⟨rfl, rfl⟩
    · split
      · rename_i o rfn heq sc cv himp hsc
        cases hb : rfn.behavior (st.counts n) <;> simp [hb, updOther _ _ _ _ h]
      · rename_i o rfn heq sc cv himp hsc
        cases hb : rfn.behavior (st.counts n) <;> simp [hb, updOther _ _ _ _ h]

theorem registryResolveCachedHit (st : RegState) (f : String) (rf : RegFn) (v : Value)
    (hfun : st.functions f = some rf) (hscope : rf.scope = .STARTUP)
    (hcache : st.cache f = some v) :
    registryResolveV1 st f = (.ok v, st) := by
  simp [registryResolveV1, hfun, hscope, hcache]

theorem startupInvStep (f : String) (rf : RegFn) (v0 : Value) (st : RegState)
    (hscope : rf.scope = .STARTUP) (hb0 : rf.behavior 0 = .ok v0)
    (hinv : StartupInv f rf v0 st) (n : String) :
    StartupInv f rf v0 (registryResolveV1 st n).2 := by
  obtain ⟨hfun, hdis⟩ := hinv
  by_cases hn : n = f
  · subst hn
    rcases hdis with ⟨hcache, hcount⟩ | ⟨hcache, hcount⟩
    · refine ⟨?_, Or.inr ⟨?_, ?_⟩⟩ <;>
        simp [registryResolveV1, hfun, hscope, hcache, hcount, hb0, updSame, hfun]
    · rw [registryResolveCachedHit st n rf v0 hfun hscope hcache]
      exact ⟨hfun, Or.inr ⟨hcache, hcount⟩⟩
  · have hpf := registryResolvePreservesFunctions st n
    have hoth := registryResolveOtherName st n f (by exact fun he => hn he.symm)
    refine ⟨by rw [hpf]; exact hfun, ?_⟩
    rcases hdis with ⟨hcache, hcount⟩ | ⟨hcache, hcount⟩
    · exact Or.inl ⟨by rw [hoth.1]; exact hcache, by rw [hoth.2]; exact hcount⟩
    · exact Or.inr ⟨by rw [hoth.1]; exact hcache, by rw [hoth.2]; exact hcount⟩

theorem startupInvRun (f : String) (rf : RegFn) (v0 : Value)
    (hscope : rf.scope = .STARTUP) (hb0 : rf.behavior 0 = .ok v0) :
    ∀ (ns : List String) (st : RegState), StartupInv f rf v0 st →
      StartupInv f rf v0 (runResolvesV1 st ns) := by
  intro ns
  induction ns with
  | nil => intro st h; exact h
  | cons n ns ih =>
    intro st h
    exact ih _ (startupInvStep f rf v0 st hscope hb0 h n)

theorem requestStepCount (st : RegState) (g : String) (rg : RegFn)
    (hfun : st.functions g = some rg) (hscope : rg.scope = .REQUEST) :
    (registryResolveV1 st g).2.counts g = st.counts g + 1 := by
  cases hb : rg.behavior (st.counts g) <;>
    simp [registryResolveV1, hfun, hscope, hb, updSame]

theorem requestCountRun (g : String) (rg : RegFn) (hscope : rg.scope = .REQUEST) :
    ∀ (ns : List String) (st : RegState), st.functions g = some rg →
      (runResolvesV1 st ns).counts g = st.counts g + countOcc g ns := by
  intro ns
  induction ns with
  | nil => intro st _; simp [runResolvesV1, countOcc]
  | cons n ns ih =>
    intro st hfun
    have hstep : runResolvesV1 st (n :: ns) = runResolvesV1 (registryResolveV1 st n).2 ns := rfl
    have hpf : (registryResolveV1 st n).2.functions g = some rg := by
      rw [registryResolvePreservesFunctions]; exact hfun
    rw [hstep, ih _ hpf]
    by_cases hn : n = g
    · subst hn
      rw [requestStepCount st n rg hfun hscope]
      simp [countOcc]
      try omega
    · have hoth := registryResolveOtherName st n g (fun he => hn he.symm)
      rw [hoth.2]
      simp [countOcc, hn]

/-- C3: in the V1 registry a STARTUP function whose first invocation
succeeds runs at most once over any sequence of resolutions without a cache
clear, a REQUEST function runs exactly once per resolution of its name, and
once a STARTUP result is cached, resolve returns it with the state
untouched. -/
theorem C3_startup_caching :
    (∀ (st0 : RegState) (f : String) (rf : RegFn) (v0 : Value) (ns : List String),
      st0.functions f = some rf → rf.scope = .STARTUP → st0.cache f = none →
      st0.counts f = 0 → rf.behavior 0 = .ok v0 →
      (runResolvesV1 st0 ns).counts f ≤ 1) ∧
    (∀ (st0 : RegState) (g : String) (rg : RegFn) (ns : List String),
      st0.functions g = some rg → rg.scope = .REQUEST →
      (runResolvesV1 st0 ns).counts g = st0.counts g + countOcc g ns) ∧
    (∀ (st : RegState) (f : String) (rf : RegFn) (v : Value),
      st.functions f = some rf → rf.scope = .STARTUP → st.cache f = some v →
      registryResolveV1 st f = (.ok v, st)) := by
  refine ⟨?_, ?_, registryResolveCachedHit⟩
  · intro st0 f rf v0 ns hfun hscope hcache hcount hb0
    have hinv := startupInvRun f rf v0 hscope hb0 ns st0 ⟨hfun, Or.inl ⟨hcache, hcount⟩⟩
    rcases hinv.2 with ⟨_, hc⟩ | ⟨_, hc⟩ <;> omega
  · intro st0 g rg ns hfun hscope
    exact requestCountRun g rg hscope ns st0 hfun

/-- C3 counterexample: the V2 registry has no cache, so two resolutions of
the same STARTUP-scoped function through the V2 context resolver invoke the
callable twice. -/
theorem C3_startup_caching_counterexample :
    fnStartupInt.scope = .STARTUP ∧
    (ctxResolveV2 stV2F "\x7b\x7bfn:f\x7d\x7d" (.dict []) none).1 = .ok (.int 5) ∧
    (ctxResolveV2 (ctxResolveV2 stV2F "\x7b\x7bfn:f\x7d\x7d" (.dict []) none).2
        "\x7b\x7bfn:f\x7d\x7d" (.dict []) none).2.counts "f" = 2 :=
  ⟨rfl, rfl, rfl⟩

/-- C3 witness: over the sequence f g f g f the STARTUP function f runs at
most once while the REQUEST function g runs once per mention, and the cached
registry returns the stored value unchanged. -/
theorem C3_startup_caching_witness :
    (runResolvesV1 stFG ["f", "g", "f", "g", "f"]).counts "f" ≤ 1 ∧
    (runResolvesV1 stFG ["f", "g", "f", "g", "f"]).counts "g" =
      stFG.counts "g" + countOcc "g" ["f", "g", "f", "g", "f"] ∧
    registryResolveV1 stFGc "f" = (.ok (.int 5), stFGc) :=
  ⟨C3_startup_caching.1 stFG "f" fnStartupInt (.int 5) ["f", "g", "f", "g", "f"]
      rfl rfl rfl rfl rfl,
   C3_startup_caching.2.1 stFG "g" fnRequestInt ["f", "g", "f", "g", "f"] rfl rfl,
   C3_startup_caching.2.2 stFGc "f" fnStartupInt (.int 5) rfl rfl rfl⟩

theorem cachedInvRun (f : String) (rf : RegFn) (v0 : Value) (hscope : rf.scope = .STARTUP) :
    ∀ (ns : List String) (st : RegState), st.functions f = some rf → st.cache f = some v0 →
      (runResolvesV1 st ns).functions f = some rf ∧
      (runResolvesV1 st ns).cache f = some v0 ∧
      (runResolvesV1 st ns).counts f = st.counts f := by
  intro ns
  induction ns with
  | nil => intro st h1 h2; exact ⟨h1, h2, rfl⟩
  | cons n ns ih =>
    intro st h1 h2
    have hstep : runResolvesV1 st (n :: ns) = runResolvesV1 (registryResolveV1 st n).2 ns := rfl
    by_cases hn : n = f
    · subst hn
      rw [hstep, registryResolveCachedHit st n rf v0 h1 hscope h2]
      exact ih st h1 h2
    · have hoth := registryResolveOtherName st n f (fun he => hn he.symm)
      have hpf := registryResolvePreservesFunctions st n
      rw [hstep]
      have := ih (registryResolveV1 st n).2 (by rw [hpf]; exact h1) (by rw [hoth.1]; exact h2)
      exact ⟨this.1, this.2.1, by rw [this.2.2, hoth.2]⟩

/-- C10: in the V1 registry the STARTUP cache is keyed by name membership,
not result truthiness: a first invocation returning None stores None in the
cache, and every later resolution of that name over any clear-free sequence
returns None without running the callable again. -/
theorem C10_none_caching :
    ∀ (st0 : RegState) (f : String) (rf : RegFn),
      st0.functions f = some rf → rf.scope = .STARTUP → rf.behavior 0 = .ok .null →
      st0.cache f = none → st0.counts f = 0 →
      (registryResolveV1 st0 f).1 = .ok .null ∧
      (registryResolveV1 st0 f).2.cache f = some .null ∧
      (registryResolveV1 st0 f).2.counts f = 1 ∧
      ∀ ns : List String,
        (runResolvesV1 (registryResolveV1 st0 f).2 ns).counts f = 1 ∧
        (registryResolveV1 (runResolvesV1 (registryResolveV1 st0 f).2 ns) f).1 = .ok .null := by
  intro st0 f rf hfun hscope hb0 hcache hcount
  have hres : registryResolveV1 st0 f =
      (.ok .null,
        { functions := st0.functions
          cache := upd st0.cache f (some .null)
          counts := upd st0.counts f 1 }) := by
    simp [registryResolveV1, hfun, hscope, hcache, hcount, hb0]
  refine ⟨by rw [hres], by rw [hres]; simp [updSame], by rw [hres]; simp [updSame], ?_⟩
  intro ns
  have h1 : (registryResolveV1 st0 f).2.functions f = some rf := by rw [hres]; exact hfun
  have h2 : (registryResolveV1 st0 f).2.cache f = some .null := by rw [hres]; simp [updSame]
  have hrun := cachedInvRun f rf .null hscope ns (registryResolveV1 st0 f).2 h1 h2
  have hc1 : (registryResolveV1 st0 f).2.counts f = 1 := by rw [hres]; simp [updSame]
  refine ⟨by rw [hrun.2.2, hc1], ?_⟩
  rw [registryResolveCachedHit _ f rf .null hrun.1 hscope hrun.2.1]

/-- C10 witness: the None-returning STARTUP function f is invoked once, its
None is cached, and two further resolutions of f still leave one invocation
and keep returning None. -/
theorem C10_none_caching_witness :
    (registryResolveV1 stNullF "f").1 = .ok .null ∧
    (registryResolveV1 stNullF "f").2.cache "f" = some .null ∧
    (registryResolveV1 stNullF "f").2.counts "f" = 1 ∧
    (runResolvesV1 (registryResolveV1 stNullF "f").2 ["f", "f"]).counts "f" = 1 ∧
    (registryResolveV1 (runResolvesV1 (registryResolveV1 stNullF "f").2 ["f", "f"]) "f").1 =
      .ok .null := by
  have h := C10_none_caching stNullF "f" fnStartupNull rfl rfl rfl rfl rfl
  exact ⟨h.1, h.2.1, h.2.2.1, (h.2.2.2 ["f", "f"]).1, (h.2.2.2 ["f", "f"]).2⟩

theorem validatePlaceholderErr {p : String} {e : VErr}
    (h : validatePlaceholderV2 p = .error e) : e = .validationError := by
  unfold validatePlaceholderV2 at h
  split at h
  · exact (Except.error.inj h).symm
  · split at h
    · exact (Except.error.inj h).symm
    · split at h
      · exact (Except.error.inj h).symm
      · exact absurd h (by simp)

theorem walkErrSecurity : ∀ (segs : List String) (cur : Value) (e : VErr),
    walkV2 cur segs = .error e → e = .securityError := by
  intro segs
  induction segs with
  | nil => intro cur e h; simp [walkV2] at h
  | cons seg rest ih =>
    intro cur e h
    simp only [walkV2] at h
    by_cases hu : headIsUnderscore seg = true
    · rw [if_pos hu] at h
      exact (Except.error.inj h).symm
    · rw [if_neg hu] at h
      by_cases hn : cur = Value.null
      · rw [if_pos hn] at h
        simp at h
      · rw [if_neg hn] at h
        cases cur with
        | null => exact absurd rfl hn
        | list xs =>
          by_cases hd : isDigitStr seg = true
          · simp only [hd, if_true] at h
            exact ih _ _ h
          · simp only [hd, if_false] at h
            exact ih _ _ h
        | dict kvs => exact ih _ _ h
        | bool b => simp at h
        | int n => simp at h
        | float l => simp at h
        | str t => simp at h

theorem handleMissingNoMVE (key : String) (strat : MissingStrategyV2) (d : Option String)
    (h : strat ≠ .ERROR) : handleMissingV2 key strat d ≠ .error .missingValueError := by
  cases strat <;> simp [handleMissingV2] at h ⊢

theorem replacerCoreNoMVE (ctx : Value) (strat : MissingStrategyV2) (key : String)
    (dflt : Option String) (h : strat ≠ .ERROR) :
    replacerCoreV2 ctx strat key dflt ≠ .error .missingValueError := by
  intro hcon
  unfold replacerCoreV2 at hcon
  rcases hv : validatePlaceholderV2 key with e | u
  · rw [hv] at hcon
    have h2 : e = VErr.missingValueError := Except.error.inj hcon
    have h3 := validatePlaceholderErr hv
    rw [h2] at h3
    exact absurd h3 (by simp)
  · rw [hv] at hcon
    rcases hw : walkV2 ctx (parsePathV2 key) with e2 | cur
    · rw [hw] at hcon
      have h2 : e2 = VErr.missingValueError := Except.error.inj hcon
      have h3 := walkErrSecurity _ _ _ hw
      rw [h2] at h3
      exact absurd h3 (by simp)
    · rw [hw] at hcon
      rcases dflt with _ | d
      · have hcon2 : (if cur = Value.null then handleMissingV2 key strat none
            else (pure (toStringV2 cur) : Except VErr String)) =
            .error .missingValueError := hcon
        by_cases hnull : cur = Value.null
        · rw [if_pos hnull] at hcon2
          exact handleMissingNoMVE key strat none h hcon2
        · rw [if_neg hnull] at hcon2
          exact Except.noConfusion hcon2
      · have hcon2 : (if cur = Value.null then (pure d : Except VErr String)
            else pure (toStringV2 cur)) = .error .missingValueError := hcon
        by_cases hnull : cur = Value.null
        · rw [if_pos hnull] at hcon2
          exact Except.noConfusion hcon2
        · rw [if_neg hnull] at hcon2
          exact Except.noConfusion hcon2

theorem replacerNoMVE (ctx : Value) (strat : MissingStrategyV2) (throw : Bool)
    (inner : List Char) (h : strat ≠ .ERROR) :
    replacerV2 ctx strat throw inner ≠ .error .missingValueError := by
  intro hcon
  have heq : replacerV2 ctx strat throw inner =
      (match replacerCoreV2 ctx strat (splitKeyDefault (stripStr (String.mk inner))).1
          (splitKeyDefault (stripStr (String.mk inner))).2 with
        | Except.ok s => Except.ok s
        | Except.error e =>
          if throw = true then Except.error e
          else Except.ok ("\x7b\x7b" ++ String.mk inner ++ "\x7d\x7d")) := rfl
  rw [heq] at hcon
  rcases hc : replacerCoreV2 ctx strat
      (splitKeyDefault (stripStr (String.mk inner))).1
      (splitKeyDefault (stripStr (String.mk inner))).2 with e | s
  · rw [hc] at hcon
    simp only at hcon
    by_cases ht : throw = true
    · rw [ht] at hcon
      simp only [if_true] at hcon
      have h2 : e = VErr.missingValueError := Except.error.inj hcon
      rw [h2] at hc
      exact replacerCoreNoMVE _ _ _ _ h hc
    · simp only [Bool.not_eq_true] at ht
      rw [ht] at hcon
      simp at hcon
  · rw [hc] at hcon
    exact Except.noConfusion hcon

theorem subScanNoMVE (repl : List Char → Except VErr String)
    (hr : ∀ inner, repl inner ≠ .error .missingValueError) :
    ∀ (fuel : Nat) (l : List Char), subScanV2 repl fuel l ≠ .error .missingValueError := by
  intro fuel
  induction fuel with
  | zero =>
    intro l
    cases l <;> simp [subScanV2]
  | succ fuel ih =>
    intro l
    cases l with
    | nil => simp [subScanV2]
    | cons c rest =>
      intro hcon
      rw [subScanV2] at hcon
      split at hcon
      · rename_i run rem hm
        rcases hrep : repl run with e | r
        · rw [hrep] at hcon
          simp only at hcon
          have h2 : e = VErr.missingValueError := Except.error.inj hcon
          rw [h2] at hrep
          exact hr run hrep
        · rw [hrep] at hcon
          simp only at hcon
          rcases hs : subScanV2 repl fuel rem with e2 | tl
          · rw [hs] at hcon
            have h2 : e2 = VErr.missingValueError := Except.error.inj hcon
            rw [h2] at hs
            exact ih rem hs
          · rw [hs] at hcon
            exact Except.noConfusion hcon
      · rcases hs : subScanV2 repl fuel rest with e2 | tl
        · rw [hs] at hcon
          have h2 : e2 = VErr.missingValueError := Except.error.inj hcon
          rw [h2] at hs
          exact ih rest hs
        · rw [hs] at hcon
          exact Except.noConfusion hcon

theorem resolveV2NoMVE (template : String) (ctx : Value) (options : Option ResolverOptionsV2)
    (h : ((options.bind (fun o => o.missingStrategy)).getD .EMPTY) ≠ .ERROR) :
    resolveV2 template ctx options ≠ .error .missingValueError := by
  intro hcon
  have heq : resolveV2 template ctx options =
      (match subScanV2
          (replacerV2 ctx ((options.bind (fun o => o.missingStrategy)).getD .EMPTY)
            ((options.bind (fun o => o.throwOnError)).getD false))
          template.data.length template.data with
        | Except.ok l => Except.ok (String.mk l)
        | Except.error e => Except.error e) := rfl
  rw [heq] at hcon
  rcases hs : subScanV2
      (replacerV2 ctx ((options.bind (fun o => o.missingStrategy)).getD .EMPTY)
        ((options.bind (fun o => o.throwOnError)).getD false))
      template.data.length template.data with e | l
  · rw [hs] at hcon
    have h2 : e = VErr.missingValueError := Except.error.inj hcon
    rw [h2] at hs
    exact subScanNoMVE _ (fun inner => replacerNoMVE ctx _ _ inner h) _ _ hs
  · rw [hs] at hcon
    exact Except.noConfusion hcon

/-- C4: the V2 missing handler raises MissingValueError under the ERROR
strategy and only there; through the V2 resolver a missing path under ERROR
surfaces that error only when throw_on_error is set, the original token
coming back otherwise; under any other strategy MissingValueError can never
escape resolve; and the V1 resolver has no MissingValueError at all and
returns the original token for a missing path under every strategy
including ERROR. -/
theorem C4_missing_value_error :
    (∀ (key : String) (dflt : Option String),
      handleMissingV2 key .ERROR dflt = .error .missingValueError) ∧
    (∀ (key : String) (strat : MissingStrategyV2) (dflt : Option String),
      strat ≠ .ERROR → ∃ s, handleMissingV2 key strat dflt = .ok s) ∧
    (∀ (template : String) (ctx : Value) (options : Option ResolverOptionsV2),
      ((options.bind (fun o => o.missingStrategy)).getD .EMPTY) ≠ .ERROR →
      resolveV2 template ctx options ≠ .error .missingValueError) ∧
    (resolveV2 "\x7b\x7bmissing\x7d\x7d" (.dict [])
        (some { missingStrategy := some .ERROR, throwOnError := some true }) =
      .error .missingValueError) ∧
    (resolveV2 "\x7b\x7bmissing\x7d\x7d" (.dict [])
        (some { missingStrategy := some .ERROR, throwOnError := some false }) =
      .ok "\x7b\x7bmissing\x7d\x7d") ∧
    (∀ strat : MissingStrategyV1,
      resolveV1 { missingStrategy := strat } emptyRegState (.dict []) .REQUEST 0
        (.str "\x7b\x7bmissing\x7d\x7d") =
      (.ok (.str "\x7b\x7bmissing\x7d\x7d"), emptyRegState)) := by
  refine ⟨fun key dflt => rfl, ?_, resolveV2NoMVE, rfl, rfl, ?_⟩
  · intro key strat dflt h
    cases strat with
    | ERROR => exact absurd rfl h
    | KEEP => exact ⟨_, rfl⟩
    | EMPTY => exact ⟨_, rfl⟩
    | DEFAULT => exact ⟨_, rfl⟩
  · intro strat
    cases strat <;> rfl

/-- C4 counterexample: the V1 resolver is configured with the ERROR strategy
by default, yet a missing template path resolves to the original token with
no exception; its error module does not even define MissingValueError. -/
theorem C4_missing_value_error_counterexample :
    defaultOptsV1.missingStrategy = .ERROR ∧
    resolveV1 defaultOptsV1 emptyRegState (.dict []) .REQUEST 0
        (.str "\x7b\x7bmissing\x7d\x7d") =
      (.ok (.str "\x7b\x7bmissing\x7d\x7d"), emptyRegState) :=
  ⟨rfl, rfl⟩

/-- C4 witness: the handler facts and the strategy-independence facts at
concrete inputs. -/
theorem C4_missing_value_error_witness :
    handleMissingV2 "missing" .ERROR none = .error .missingValueError ∧
    (∃ s, handleMissingV2 "missing" .KEEP none = .ok s) ∧
    resolveV2 "\x7b\x7bx\x7d\x7d" (.dict []) none ≠ .error .missingValueError ∧
    resolveV1 { missingStrategy := .IGNORE } emptyRegState (.dict []) .REQUEST 0
        (.str "\x7b\x7bmissing\x7d\x7d") =
      (.ok (.str "\x7b\x7bmissing\x7d\x7d"), emptyRegState) :=
  ⟨C4_missing_value_error.1 "missing" none,
   C4_missing_value_error.2.1 "missing" .KEEP none (by decide),
   C4_missing_value_error.2.2.1 "\x7b\x7bx\x7d\x7d" (.dict []) none (by decide),
   C4_missing_value_error.2.2.2.2.2 .IGNORE⟩

/-- C5: default coercion checks in order: the words true and false case
insensitively to booleans, all-digit strings to integers with the resolve
pipeline returning the integer 42 for an inline default of 42, then any
string the Python float constructor accepts to a float, and only the
remaining strings stay strings verbatim. -/
theorem C5_default_coercion :
    (∀ s : String, lowerAscii s = "true" → parseDefaultV1 s = .bool true) ∧
    (∀ s : String, lowerAscii s = "false" → parseDefaultV1 s = .bool false) ∧
    (∀ s : String, lowerAscii s ≠ "true" → lowerAscii s ≠ "false" →
      isDigitStr s = true → parseDefaultV1 s = .int (Int.ofNat (digitsToNat s.data))) ∧
    (∀ s : String, lowerAscii s ≠ "true" → lowerAscii s ≠ "false" →
      isDigitStr s = false → floatParsable s = true → parseDefaultV1 s = .float s) ∧
    (∀ s : String, lowerAscii s ≠ "true" → lowerAscii s ≠ "false" →
      isDigitStr s = false → floatParsable s = false → parseDefaultV1 s = .str s) ∧
    (resolveV1 defaultOptsV1 emptyRegState (.dict []) .REQUEST 0
        (.str "\x7b\x7bmissing | \x2742\x27\x7d\x7d") =
      (.ok (.int 42), emptyRegState)) := by
  refine ⟨?_, ?_, ?_, ?_, ?_, rfl⟩
  · intro s h; simp [parseDefaultV1, h]
  · intro s h
    have hne : lowerAscii s ≠ "true" := by rw [h]; decide
    simp [parseDefaultV1, h, hne]
  · intro s h1 h2 h3; simp [parseDefaultV1, h1, h2, h3]
  · intro s h1 h2 h3 h4; simp [parseDefaultV1, h1, h2, h3, h4]
  · intro s h1 h2 h3 h4; simp [parseDefaultV1, h1, h2, h3, h4]

/-- C5 counterexample: the string 1e3 is not all digits and contains no
decimal point, yet coercion produces a float rather than returning it
verbatim as a string, because the source tries the Python float constructor
on everything the integer branch rejected. -/
theorem C5_default_coercion_counterexample :
    isDigitStr "1e3" = false ∧
    "1e3".data.contains '.' = false ∧
    parseDefaultV1 "1e3" = .float "1e3" := by
  refine ⟨by decide, by decide, by decide⟩

/-- C5 witness: each coercion branch at a concrete literal. -/
theorem C5_default_coercion_witness :
    parseDefaultV1 "TRUE" = .bool true ∧
    parseDefaultV1 "False" = .bool false ∧
    parseDefaultV1 "42" = .int 42 ∧
    parseDefaultV1 "3.14" = .float "3.14" ∧
    parseDefaultV1 "hello" = .str "hello" :=
  ⟨C5_default_coercion.1 "TRUE" (by decide),
   C5_default_coercion.2.1 "False" (by decide),
   C5_default_coercion.2.2.1 "42" (by decide) (by decide) (by decide),
   C5_default_coercion.2.2.2.1 "3.14" (by decide) (by decide) (by decide) (by decide),
   C5_default_coercion.2.2.2.2.1 "hello" (by decide) (by decide) (by decide) (by decide)⟩

/-- C6: template path lookup never raises on a missing path: once validation
passes, resolution always produces a value.  But the lookup returns None
both for an absent path and for a present null, so the inline default and
missing handling apply whenever the looked-up value is None, with no
distinction between the two cases. -/
theorem C6_missing_sentinel :
    (∀ (opts : ResolverOptionsV1) (ctx : Value) (path : String) (dflt : Option String)
       (orig : String), validatePath path = .ok () →
      ∃ v, resolveTemplateV1 opts ctx path dflt orig = .ok v) ∧
    (∀ (opts : ResolverOptionsV1) (ctx : Value) (path : String) (d : String) (orig : String),
      validatePath path = .ok () → getValueByPath ctx path = .null →
      resolveTemplateV1 opts ctx path (some d) orig = .ok (parseDefaultV1 d)) ∧
    (∀ (opts : ResolverOptionsV1) (ctx : Value) (path : String) (dflt : Option String)
       (orig : String) (v : Value), validatePath path = .ok () →
      getValueByPath ctx path = v → v ≠ .null →
      resolveTemplateV1 opts ctx path dflt orig = .ok v) ∧
    (dictGet [("a", .null)] "a" = some .null ∧
      getValueByPath (.dict [("a", .null)]) "a" = .null ∧
      getValueByPath (.dict []) "a" = .null) := by
  refine ⟨?_, ?_, ?_, by decide, by decide, by decide⟩
  · intro opts ctx path dflt orig hval
    simp only [resolveTemplateV1, hval]
    by_cases hv : getValueByPath ctx path = .null
    · simp only [hv, if_true]
      rcases dflt with _ | d
      · cases opts.missingStrategy <;> exact ⟨_, rfl⟩
      · exact ⟨_, rfl⟩
    · simp only [if_neg hv]
      exact ⟨_, rfl⟩
  · intro opts ctx path d orig hval hnull
    simp only [resolveTemplateV1, hval, hnull, if_true]
  · intro opts ctx path dflt orig v hval hv hne
    simp only [resolveTemplateV1, hval, hv, if_neg hne]

/-- C6 counterexample: the key a is present with value null, yet the inline
default is applied exactly as if the path were absent. -/
theorem C6_missing_sentinel_counterexample :
    dictHasKey (.dict [("a", .null)]) "a" = true ∧
    resolveV1 defaultOptsV1 emptyRegState (.dict [("a", .null)]) .REQUEST 0
        (.str "\x7b\x7ba | \x27x\x27\x7d\x7d") =
      (.ok (.str "x"), emptyRegState) ∧
    resolveV1 defaultOptsV1 emptyRegState (.dict []) .REQUEST 0
        (.str "\x7b\x7ba | \x27x\x27\x7d\x7d") =
      (.ok (.str "x"), emptyRegState) :=
  ⟨rfl, rfl, rfl⟩

/-- C6 witness: a validated path always resolves, a null lookup takes the
default, and a non-null lookup returns the stored value. -/
theorem C6_missing_sentinel_witness :
    (∃ v, resolveTemplateV1 defaultOptsV1 (.dict []) "a" none "orig" = .ok v) ∧
    resolveTemplateV1 defaultOptsV1 (.dict [("a", .null)]) "a" (some "x") "orig" =
      .ok (parseDefaultV1 "x") ∧
    resolveTemplateV1 defaultOptsV1 (.dict [("a", .int 3)]) "a" none "orig" =
      .ok (.int 3) :=
  ⟨C6_missing_sentinel.1 defaultOptsV1 (.dict []) "a" none "orig" (by decide),
   C6_missing_sentinel.2.1 defaultOptsV1 (.dict [("a", .null)]) "a" "x" "orig"
     (by decide) (by decide),
   C6_missing_sentinel.2.2.1 defaultOptsV1 (.dict [("a", .int 3)]) "a" none "orig"
     (.int 3) (by decide) (by decide) (by decide)⟩

/-- C8: both registries validate names against the shared pattern and raise
ValueError on failure; the V2 registry rejects a second registration under
an existing name, while the V1 registry accepts it and silently overwrites
the stored entry. -/
theorem C8_registration :
    (∀ (st : RegState) (name : String) (fn : RegFn),
      nameOk name = false → registerV1 st name fn = .error ()) ∧
    (∀ (st : RegStateV2) (name : String) (fn : RegFn),
      nameOk name = false → registerV2 st name fn = .error ()) ∧
    (∀ (st : RegStateV2) (name : String) (fn : RegFn),
      (st.functions name).isSome = true → registerV2 st name fn = .error ()) ∧
    (∀ (st : RegState) (name : String) (fn rf : RegFn),
      nameOk name = true → st.functions name = some rf →
      ∃ st2, registerV1 st name fn = .ok st2 ∧ st2.functions name = some fn) := by
  refine ⟨?_, ?_, ?_, ?_⟩
  · intro st name fn h; simp [registerV1, h]
  · intro st name fn h; simp [registerV2, h]
  · intro st name fn h
    by_cases hn : nameOk name
    · simp [registerV2, hn, h]
    · simp [registerV2, hn]
  · intro st name fn rf h1 _h2
    exact ⟨{ st with functions := upd st.functions name (some fn) },
      by simp [registerV1, h1], by simp [updSame]⟩

/-- C8 counterexample: in the V1 registry a second registration under the
name f succeeds without error and replaces the entry, observable through
its scope flipping from STARTUP to REQUEST. -/
theorem C8_registration_counterexample :
    (registerV1 emptyRegState "f" c8fn1).isOk = true ∧
    c8res2.isOk = true ∧
    (match c8res2 with
      | .ok s => (s.functions "f").map (fun r => r.scope)
      | .error _ => none) = some .REQUEST :=
  ⟨rfl, rfl, rfl⟩

/-- C8 witness: name validation rejects a digit-leading and an empty name in
both registries, the V2 registry rejects the duplicate f, and the V1
registry overwrites it. -/
theorem C8_registration_witness :
    registerV1 emptyRegState "9bad" c8fn1 = .error () ∧
    registerV2 emptyRegStateV2 "" c8fn1 = .error () ∧
    registerV2 stV2F "f" c8fn2 = .error () ∧
    (∃ st2, registerV1 c8st1 "f" c8fn2 = .ok st2 ∧ st2.functions "f" = some c8fn2) :=
  ⟨C8_registration.1 emptyRegState "9bad" c8fn1 (by decide),
   C8_registration.2.1 emptyRegStateV2 "" c8fn1 (by decide),
   C8_registration.2.2.1 stV2F "f" c8fn2 (by decide),
   C8_registration.2.2.2 c8st1 "f" c8fn2 c8fn1 (by decide) rfl⟩

theorem digitHeadNotUnderscore {seg : String} (h : isDigitStr seg = true) :
    headIsUnderscore seg = false := by
  unfold isDigitStr at h
  unfold headIsUnderscore
  rcases hd : seg.data with _ | ⟨c, cs⟩
  · rfl
  · rw [hd] at h
    simp only [Bool.and_eq_true, List.all_cons] at h
    have hc : c.isDigit = true := h.2.1
    by_cases he : c = underscoreC
    · rw [he] at hc
      exact absurd hc (by decide)
    · simp [he]

theorem replacerV2Unfold (ctx : Value) (strat : MissingStrategyV2) (throw : Bool)
    (inner : List Char) :
    replacerV2 ctx strat throw inner =
      (match replacerCoreV2 ctx strat (splitKeyDefault (stripStr (String.mk inner))).1
          (splitKeyDefault (stripStr (String.mk inner))).2 with
        | Except.ok s => Except.ok s
        | Except.error e =>
          if throw = true then Except.error e
          else Except.ok ("\x7b\x7b" ++ String.mk inner ++ "\x7d\x7d")) := rfl

theorem resolveV2Unfold (template : String) (ctx : Value)
    (options : Option ResolverOptionsV2) :
    resolveV2 template ctx options =
      (match subScanV2
          (replacerV2 ctx ((options.bind (fun o => o.missingStrategy)).getD .EMPTY)
            ((options.bind (fun o => o.throwOnError)).getD false))
          template.data.length template.data with
        | Except.ok l => Except.ok (String.mk l)
        | Except.error e => Except.error e) := rfl

theorem replacerCoreEval (ctx : Value) (strat : MissingStrategyV2) (key : String)
    (cur : Value) (hval : validatePlaceholderV2 key = .ok ())
    (hw : walkV2 ctx (parsePathV2 key) = .ok cur) :
    replacerCoreV2 ctx strat key none =
      if cur = .null then handleMissingV2 key strat none
      else pure (toStringV2 cur) := by
  unfold replacerCoreV2
  rw [hval, hw]
  rfl

theorem matchAtHeadSingle (inner : List Char) (hne : ¬ inner.isEmpty)
    (hnb : inner.all (fun d => ¬ d = rbraceC) = true) :
    matchAtHead (lbraceC :: lbraceC :: (inner ++ [rbraceC, rbraceC])) = some (inner, []) := by
  have hunf : matchAtHead (lbraceC :: lbraceC :: (inner ++ [rbraceC, rbraceC])) =
      (if ¬ (List.takeWhile (fun d => ¬ d = rbraceC) (inner ++ [rbraceC, rbraceC])).isEmpty &&
          listStartsWith (List.dropWhile (fun d => ¬ d = rbraceC) (inner ++ [rbraceC, rbraceC]))
            [rbraceC, rbraceC] then
        some (List.takeWhile (fun d => ¬ d = rbraceC) (inner ++ [rbraceC, rbraceC]),
          (List.dropWhile (fun d => ¬ d = rbraceC) (inner ++ [rbraceC, rbraceC])).drop 2)
      else none) := rfl
  rw [hunf, takeWhileAppendAll _ _ _ hnb, dropWhileAppendAll _ _ _ hnb]
  rw [show List.takeWhile (fun d => ¬ d = rbraceC) [rbraceC, rbraceC] = [] from by decide]
  rw [show List.dropWhile (fun d => ¬ d = rbraceC) [rbraceC, rbraceC] = [rbraceC, rbraceC]
    from by decide]
  simp [hne]
  try decide

theorem subScanSingle (repl : List Char → Except VErr String) (inner : List Char)
    (hne : ¬ inner.isEmpty) (hnb : inner.all (fun d => ¬ d = rbraceC) = true) (fuel : Nat) :
    subScanV2 repl (fuel + 1) (lbraceC :: lbraceC :: (inner ++ [rbraceC, rbraceC])) =
      (match repl inner with
        | .ok r => .ok (r.data ++ [])
        | .error e => .error e) := by
  rw [subScanV2]
  rw [matchAtHeadSingle inner hne hnb]
  dsimp only
  rcases hr : repl inner with e | r
  · rfl
  · dsimp only
    rw [show subScanV2 repl fuel [] = .ok [] from by cases fuel <;> rfl]

theorem walkItemsHead (v : Value) (xs : List Value) :
    walkV2 (.dict [("items", .list (v :: xs))]) (parsePathV2 "items[0]") = .ok v := by
  have hw0 : walkV2 (.dict [("items", .list (v :: xs))]) (parsePathV2 "items[0]") =
      .ok (if h : 0 < (v :: xs).length then (v :: xs).get ⟨0, h⟩ else Value.null) := rfl
  rw [hw0, dif_pos (show 0 < (v :: xs).length from Nat.succ_pos xs.length)]
  rfl

theorem resolveV2ItemsHead (v : Value) (xs : List Value) :
    resolveV2 "\x7b\x7bitems[0]\x7d\x7d" (.dict [("items", .list (v :: xs))]) none =
      .ok (toStringV2 v) := by
  have hcore : replacerCoreV2 (.dict [("items", .list (v :: xs))]) .EMPTY "items[0]" none =
      .ok (toStringV2 v) := by
    rw [replacerCoreEval _ _ _ v (by decide) (walkItemsHead v xs)]
    by_cases hv : v = Value.null
    · subst hv
      rfl
    · rw [if_neg hv]
      rfl
  have hrep : replacerV2 (.dict [("items", .list (v :: xs))]) .EMPTY false
      "items[0]".data = .ok (toStringV2 v) := by
    rw [replacerV2Unfold]
    rw [show splitKeyDefault (stripStr (String.mk "items[0]".data)) =
      ("items[0]", (none : Option String)) from rfl]
    rw [hcore]
  rw [resolveV2Unfold]
  rw [show ("\x7b\x7bitems[0]\x7d\x7d" : String).data =
    lbraceC :: lbraceC :: ("items[0]".data ++ [rbraceC, rbraceC]) from rfl]
  rw [show (lbraceC :: lbraceC :: ("items[0]".data ++ [rbraceC, rbraceC])).length =
    11 + 1 from rfl]
  rw [subScanSingle _ _ (by decide) (by decide) 11]
  rw [show (Option.bind (none : Option ResolverOptionsV2) (fun o => o.missingStrategy)).getD
    .EMPTY = MissingStrategyV2.EMPTY from rfl]
  rw [show (Option.bind (none : Option ResolverOptionsV2) (fun o => o.throwOnError)).getD
    false = false from rfl]
  rw [hrep]
  simp only [List.append_nil]

theorem walkV2ListIndex (xs : List Value) (seg : String) (h : isDigitStr seg = true) :
    walkV2 (.list xs) [seg] =
      .ok (if hl : digitsToNat seg.data < xs.length
           then xs.get ⟨digitsToNat seg.data, hl⟩ else .null) := by
  have hu := digitHeadNotUnderscore h
  have hnn : ¬ (Value.list xs = Value.null) := by simp
  simp only [walkV2, hu, Bool.false_eq_true, if_false, hnn, h, if_true]

/-- C9: in the V2 resolver a bracket-index segment over a list performs a
bounds-checked index, so a placeholder over a non-empty list yields the
stringified first element and an empty list yields the missing result, while
in general a digit segment over a list value returns the element in range
and the missing marker out of range.  The V1 resolver rejects bracket syntax
entirely: its template pattern has no brackets, so the placeholder comes
back as a literal string. -/
theorem C9_bracket_index :
    (∀ (v : Value) (xs : List Value),
      resolveV2 "\x7b\x7bitems[0]\x7d\x7d" (.dict [("items", .list (v :: xs))]) none =
        .ok (toStringV2 v)) ∧
    (resolveV2 "\x7b\x7bitems[0]\x7d\x7d" (.dict [("items", .list [])]) none = .ok "") ∧
    (∀ (xs : List Value) (seg : String), isDigitStr seg = true →
      walkV2 (.list xs) [seg] =
        .ok (if hl : digitsToNat seg.data < xs.length
             then xs.get ⟨digitsToNat seg.data, hl⟩ else .null)) ∧
    (templateMatchV1 "\x7b\x7bitems[0]\x7d\x7d" = none) :=
  ⟨resolveV2ItemsHead, rfl, walkV2ListIndex, by decide⟩

/-- C9 counterexample: the V1 resolver returns the bracket placeholder as a
literal string even though items holds a non-empty list, because its
template regex admits no bracket characters. -/
theorem C9_bracket_index_counterexample :
    resolveV1 defaultOptsV1 emptyRegState (.dict [("items", .list [.int 7])]) .REQUEST 0
        (.str "\x7b\x7bitems[0]\x7d\x7d") =
      (.ok (.str "\x7b\x7bitems[0]\x7d\x7d"), emptyRegState) :=
  rfl

/-- C9 witness: the first element comes back stringified, and the general
bounds check yields the element in range and the missing marker out of
range at concrete indices. -/
theorem C9_bracket_index_witness :
    resolveV2 "\x7b\x7bitems[0]\x7d\x7d" (.dict [("items", .list [.str "x", .str "y"])]) none =
      .ok "x" ∧
    walkV2 (.list [.int 1, .int 2]) ["1"] = .ok (.int 2) ∧
    walkV2 (.list [.int 1, .int 2]) ["5"] = .ok .null :=
  ⟨C9_bracket_index.1 (.str "x") [.str "y"],
   C9_bracket_index.2.2.1 [.int 1, .int 2] "1" (by decide),
   C9_bracket_index.2.2.1 [.int 1, .int 2] "5" (by decide)⟩

mutual

theorem resObjPlain (opts : ResolverOptionsV1) (ctx : Value) (scope : ComputeScope) :
    ∀ (v : Value) (st : RegState) (depth : Nat), plainTree v = true →
      (opts.maxDepth < depth + visitDepth v →
        resolveObjectV1 opts ctx scope st depth v = (.error .recursionLimit, st)) ∧
      (depth + visitDepth v ≤ opts.maxDepth →
        ∃ w, resolveObjectV1 opts ctx scope st depth v = (.ok w, st))
  | .null, st, depth, _hp => by
    constructor
    · intro hlt
      have h0 : visitDepth Value.null = 0 := rfl
      rw [h0] at hlt
      simp [resolveObjectV1, show opts.maxDepth < depth from by omega]
    · intro hle
      have h0 : visitDepth Value.null = 0 := rfl
      rw [h0] at hle
      exact ⟨.null, by simp [resolveObjectV1, show ¬ opts.maxDepth < depth from by omega]⟩
  | .bool b, st, depth, _hp => by
    constructor
    · intro hlt
      have h0 : visitDepth (Value.bool b) = 0 := rfl
      rw [h0] at hlt
      simp [resolveObjectV1, show opts.maxDepth < depth from by omega]
    · intro hle
      have h0 : visitDepth (Value.bool b) = 0 := rfl
      rw [h0] at hle
      exact ⟨.bool b, by simp [resolveObjectV1, show ¬ opts.maxDepth < depth from by omega]⟩
  | .int n, st, depth, _hp => by
    constructor
    · intro hlt
      have h0 : visitDepth (Value.int n) = 0 := rfl
      rw [h0] at hlt
      simp [resolveObjectV1, show opts.maxDepth < depth from by omega]
    · intro hle
      have h0 : visitDepth (Value.int n) = 0 := rfl
      rw [h0] at hle
      exact ⟨.int n, by simp [resolveObjectV1, show ¬ opts.maxDepth < depth from by omega]⟩
  | .float l, st, depth, _hp => by
    constructor
    · intro hlt
      have h0 : visitDepth (Value.float l) = 0 := rfl
      rw [h0] at hlt
      simp [resolveObjectV1, show opts.maxDepth < depth from by omega]
    · intro hle
      have h0 : visitDepth (Value.float l) = 0 := rfl
      rw [h0] at hle
      exact ⟨.float l, by simp [resolveObjectV1, show ¬ opts.maxDepth < depth from by omega]⟩
  | .str s, st, depth, hp => by
    have hps : plainString s = true := hp
    obtain ⟨hcm, htm⟩ : computeMatchV1 s = none ∧ templateMatchV1 s = none := by
      simpa [plainString, Bool.and_eq_true, Option.isNone_iff_eq_none] using hps
    constructor
    · intro hlt
      have h0 : visitDepth (Value.str s) = 0 := rfl
      rw [h0] at hlt
      simp [resolveObjectV1, show opts.maxDepth < depth from by omega]
    · intro hle
      have h0 : visitDepth (Value.str s) = 0 := rfl
      rw [h0] at hle
      have hdm : ¬ opts.maxDepth < depth := by omega
      exact ⟨.str s, by simp [resolveObjectV1, hdm, resolveV1, hcm, htm]⟩
  | .dict kvs, st, depth, hp => by
    have hpd : plainTreeDict kvs = true := hp
    have hvd : visitDepth (Value.dict kvs) = visitDepthDict kvs := rfl
    constructor
    · intro hlt
      rw [hvd] at hlt
      by_cases hdm : opts.maxDepth < depth
      · simp [resolveObjectV1, hdm]
      · have hD := resDictPlain opts ctx scope kvs st (depth + 1) hpd (by omega)
        have herr := hD.1 (by omega)
        simp [resolveObjectV1, hdm, herr]
    · intro hle
      rw [hvd] at hle
      have hdm : ¬ opts.maxDepth < depth := by
        have := Nat.le_add_right depth (visitDepthDict kvs)
        omega
      have hD := resDictPlain opts ctx scope kvs st (depth + 1) hpd (by omega)
      obtain ⟨ys, hys⟩ := hD.2 (by omega)
      exact ⟨.dict ys, by simp [resolveObjectV1, hdm, hys]⟩
  | .list xs, st, depth, hp => by
    have hpl : plainTreeList xs = true := hp
    have hvd : visitDepth (Value.list xs) = visitDepthList xs := rfl
    constructor
    · intro hlt
      rw [hvd] at hlt
      by_cases hdm : opts.maxDepth < depth
      · simp [resolveObjectV1, hdm]
      · have hL := resListPlain opts ctx scope xs st (depth + 1) hpl (by omega)
        have herr := hL.1 (by omega)
        simp [resolveObjectV1, hdm, herr]
    · intro hle
      rw [hvd] at hle
      have hdm : ¬ opts.maxDepth < depth := by
        have := Nat.le_add_right depth (visitDepthList xs)
        omega
      have hL := resListPlain opts ctx scope xs st (depth + 1) hpl (by omega)
      obtain ⟨ys, hys⟩ := hL.2 (by omega)
      exact ⟨.list ys, by simp [resolveObjectV1, hdm, hys]⟩

theorem resDictPlain (opts : ResolverOptionsV1) (ctx : Value) (scope : ComputeScope) :
    ∀ (kvs : List (String × Value)) (st : RegState) (depth : Nat),
      plainTreeDict kvs = true → depth ≤ opts.maxDepth + 1 →
      (opts.maxDepth + 1 < depth + visitDepthDict kvs →
        resolveDictV1 opts ctx scope st depth kvs = (.error .recursionLimit, st)) ∧
      (depth + visitDepthDict kvs ≤ opts.maxDepth + 1 →
        ∃ ys, resolveDictV1 opts ctx scope st depth kvs = (.ok ys, st))
  | [], st, depth, _hp, hdb => by
    constructor
    · intro hlt
      have h0 : visitDepthDict [] = 0 := rfl
      rw [h0] at hlt
      omega
    · intro _
      exact ⟨[], by simp [resolveDictV1]⟩
  | (k, v) :: rest, st, depth, hpd, hdb => by
    obtain ⟨hpv, hprest⟩ : plainTree v = true ∧ plainTreeDict rest = true := by
      simpa [plainTreeDict, Bool.and_eq_true] using hpd
    have hvd : visitDepthDict ((k, v) :: rest) =
        max (visitDepth v + 1) (visitDepthDict rest) := rfl
    constructor
    · intro hlt
      rw [hvd] at hlt
      by_cases hverr : opts.maxDepth < depth + visitDepth v
      · have h1 := (resObjPlain opts ctx scope v st depth hpv).1 hverr
        simp [resolveDictV1, h1]
      · obtain ⟨w, hw⟩ := (resObjPlain opts ctx scope v st depth hpv).2 (by omega)
        have hrest := (resDictPlain opts ctx scope rest st depth hprest hdb).1 (by omega)
        simp [resolveDictV1, hw, hrest]
    · intro hle
      rw [hvd] at hle
      obtain ⟨w, hw⟩ := (resObjPlain opts ctx scope v st depth hpv).2 (by omega)
      obtain ⟨ys, hys⟩ := (resDictPlain opts ctx scope rest st depth hprest hdb).2 (by omega)
      exact ⟨(k, w) :: ys, by simp [resolveDictV1, hw, hys]⟩

theorem resListPlain (opts : ResolverOptionsV1) (ctx : Value) (scope : ComputeScope) :
    ∀ (xs : List Value) (st : RegState) (depth : Nat),
      plainTreeList xs = true → depth ≤ opts.maxDepth + 1 →
      (opts.maxDepth + 1 < depth + visitDepthList xs →
        resolveListV1 opts ctx scope st depth xs = (.error .recursionLimit, st)) ∧
      (depth + visitDepthList xs ≤ opts.maxDepth + 1 →
        ∃ ys, resolveListV1 opts ctx scope st depth xs = (.ok ys, st))
  | [], st, depth, _hp, hdb => by
    constructor
    · intro hlt
      have h0 : visitDepthList [] = 0 := rfl
      rw [h0] at hlt
      omega
    · intro _
      exact ⟨[], by simp [resolveListV1]⟩
  | v :: rest, st, depth, hpl, hdb => by
    obtain ⟨hpv, hprest⟩ : plainTree v = true ∧ plainTreeList rest = true := by
      simpa [plainTreeList, Bool.and_eq_true] using hpl
    have hvd : visitDepthList (v :: rest) =
        max (visitDepth v + 1) (visitDepthList rest) := rfl
    constructor
    · intro hlt
      rw [hvd] at hlt
      by_cases hverr : opts.maxDepth < depth + visitDepth v
      · have h1 := (resObjPlain opts ctx scope v st depth hpv).1 hverr
        simp [resolveListV1, h1]
      · obtain ⟨w, hw⟩ := (resObjPlain opts ctx scope v st depth hpv).2 (by omega)
        have hrest := (resListPlain opts ctx scope rest st depth hprest hdb).1 (by omega)
        simp [resolveListV1, hw, hrest]
    · intro hle
      rw [hvd] at hle
      obtain ⟨w, hw⟩ := (resObjPlain opts ctx scope v st depth hpv).2 (by omega)
      obtain ⟨ys, hys⟩ := (resListPlain opts ctx scope rest st depth hprest hdb).2 (by omega)
      exact ⟨w :: ys, by simp [resolveListV1, hw, hys]⟩

end

/-- C7: for trees of plain values the V1 resolve_object raises
RecursionLimitError exactly when the depth of the deepest visited node
exceeds the configured max_depth, whose default is ten; in particular a
three-level nested object under max_depth one raises. -/
theorem C7_recursion_limit :
    (∀ (opts : ResolverOptionsV1) (ctx : Value) (scope : ComputeScope) (st : RegState)
       (v : Value), plainTree v = true →
      ((resolveObjectV1 opts ctx scope st 0 v).1 = .error .recursionLimit ↔
        opts.maxDepth < visitDepth v)) ∧
    defaultOptsV1.maxDepth = 10 := by
  refine ⟨?_, rfl⟩
  intro opts ctx scope st v hp
  constructor
  · intro h
    by_contra hn
    obtain ⟨w, hw⟩ := (resObjPlain opts ctx scope v st 0 hp).2 (by omega)
    rw [hw] at h
    exact Except.noConfusion h
  · intro h
    rw [(resObjPlain opts ctx scope v st 0 hp).1 (by omega)]

/-- C7 counterexample: the V2 batch resolve_object has no configurable
max_depth and raises nothing at its hard-coded cutoff of ten: a twelve-level
nest comes back unchanged with the innermost placeholder unresolved, even
though that placeholder resolves on its own. -/
theorem C7_recursion_limit_counterexample :
    batchResolveObjectV2 (.dict [("a", .str "x")]) none 0 (nestDict 12) = .ok (nestDict 12) ∧
    resolveV2 "\x7b\x7ba\x7d\x7d" (.dict [("a", .str "x")]) none = .ok "x" := by
  exact ⟨by decide, rfl⟩

/-- C7 witness: a three-level nested dict under max_depth one raises the
recursion limit, and the same tree under the default limit of ten does not. -/
theorem C7_recursion_limit_witness :
    plainTree (.dict [("a", .dict [("b", .dict [("c", .int 1)])])]) = true ∧
    (resolveObjectV1 { maxDepth := 1 } (.dict []) .REQUEST emptyRegState 0
        (.dict [("a", .dict [("b", .dict [("c", .int 1)])])])).1 =
      .error .recursionLimit ∧
    ¬ (resolveObjectV1 defaultOptsV1 (.dict []) .REQUEST emptyRegState 0
        (.dict [("a", .dict [("b", .dict [("c", .int 1)])])])).1 =
      .error .recursionLimit :=
  ⟨by decide,
   (C7_recursion_limit.1 { maxDepth := 1 } (.dict []) .REQUEST emptyRegState
     (.dict [("a", .dict [("b", .dict [("c", .int 1)])])]) (by decide)).mpr (by decide),
   fun h =>
     absurd ((C7_recursion_limit.1 defaultOptsV1 (.dict []) .REQUEST emptyRegState
       (.dict [("a", .dict [("b", .dict [("c", .int 1)])])]) (by decide)).mp h)
       (by decide)⟩
